import Mathlib

/-!
Shallow embedding of the VisualEditor data-model core: the
`ve.dm.ElementLinearData` methods and the `ve.dm.NodeFactory` capability
registry, together with the parts of the (absent) `ve.dm.FlatLinearData` /
`ve.dm.LinearData` base classes and the index-value store that the embedded
methods use, modelled from the specification.

JavaScript exceptions are modelled by `Except String`; machine numbers are
`Int`/`Nat`; the mutable linear array is a `List` threaded explicitly.
-/

/-- An annotation value held in the index-value store.  Only the fields the
embedded code inspects are modelled: the annotation name and the optional
index of the original DOM elements on its wrapped element. -/
structure AnnEntry where
  name : String
  originalDomElementsIndex : Option Nat := none
deriving DecidableEq, Repr

/-- Modelled from the spec: the deduplicated index-value store
(`ve.dm.IndexValueStore`, not under `src/`).  Values are addressed by their
position in the list; insertion returns the existing index when an equal
value is already stored. -/
structure IndexValueStore where
  values : List AnnEntry
deriving DecidableEq, Repr

/-- `store.value( index )`: lookup, failing for an unknown index. -/
def IndexValueStore.value (s : IndexValueStore) (i : Nat) : Except String AnnEntry :=
  match s.values.get? i with
  | some v => .ok v
  | none => .error ("Index " ++ toString i ++ " out of range")

/-- `store.index( value )`: insert-or-find with structural-equality dedup. -/
def IndexValueStore.index (s : IndexValueStore) (v : AnnEntry) : IndexValueStore × Nat :=
  match s.values.findIdx? (· == v) with
  | some ix => (s, ix)
  | none => (⟨s.values ++ [v]⟩, s.values.length)

/-- `store.indexes( values )`: batch insert-or-find, in order. -/
def IndexValueStore.indexes (s : IndexValueStore) : List AnnEntry → IndexValueStore × List Nat
  | [] => (s, [])
  | v :: vs =>
    let p := s.index v
    let q := p.1.indexes vs
    (q.1, p.2 :: q.2)

/-- `store.valuesOfE( indexes )`: the values of an annotation set
(`AnnotationSet#get` over every member), failing on a dangling index. -/
def IndexValueStore.valuesOfE (s : IndexValueStore) : List Nat → Except String (List AnnEntry)
  | [] => .ok []
  | ix :: rest =>
    match s.value ix with
    | .error e => .error e
    | .ok v =>
      match s.valuesOfE rest with
      | .error e => .error e
      | .ok vs => .ok (v :: vs)

/-- The `internal` metadata object of an element.  Only the two keys the
embedded code reads or deletes (`generated`, `whitespace`) are modelled. -/
structure InternalData where
  generated : Bool := false
  whitespace : Bool := false
deriving DecidableEq, Repr

/-- A structural element record of the linear data: `{ type, attributes?,
annotations?, internal?, originalDomElementsIndex? }`.  A closing marker is
an element whose `type` begins with `"/"`. -/
structure Element where
  type : String
  attributes : Option (List (String × String)) := none
  annotations : Option (List Nat) := none
  internal : Option InternalData := none
  originalDomElementsIndex : Option Nat := none
deriving DecidableEq, Repr

/-- One slot of the linear data: a bare character (a one-character JS
string), a `[character, annotationIndexes]` pair, or an element record. -/
inductive LinearItem where
  | char (s : String)
  | annChar (s : String) (anns : List Nat)
  | element (e : Element)
deriving DecidableEq, Repr

/-- JS `type.charAt( 0 ) === '/'` on an element type string. -/
def isCloseType (t : String) : Bool := t.data.head? = some '/'

/-- JS `type.slice( 1 )`: the type string without its first character. -/
def sliceOne (t : String) : String := ⟨t.data.drop 1⟩

/-- The registry-facing base type of an element: its `type` with the
leading slash of a closing marker removed (what `getType` returns). -/
def elemBaseType (e : Element) : String :=
  if isCloseType e.type then sliceOne e.type else e.type

/-- The per-type capability record the registry resolves a type name to
(the `static` fields of a registered `ve.dm.Node` subclass that
`ve.dm.NodeFactory` reads).  `none` stands for JS `null` (any type). -/
structure NodeCapabilities where
  childNodeTypes : Option (List String) := none
  parentNodeTypes : Option (List String) := none
  suggestedParentNodeTypes : Option (List String) := none
  canContainContent : Bool := false
  isContent : Bool := false
  isWrapped : Bool := true
  isUnwrappable : Bool := true
  isFocusable : Bool := false
  hasSignificantWhitespace : Bool := false
  handlesOwnChildren : Bool := false
  ignoreChildren : Bool := false
  isInternal : Bool := false
  isDeletable : Bool := true
  blacklistedAnnotationTypes : List String := []
deriving DecidableEq, Repr

/-- The capability registry `ve.dm.nodeFactory`: a mapping from type name
to capability record. -/
structure NodeFactory where
  registry : List (String × NodeCapabilities)
deriving DecidableEq, Repr

/-- `Object.prototype.hasOwnProperty.call( this.registry, type )` plus the
read of the registered class. -/
def NodeFactory.lookup (f : NodeFactory) (t : String) : Option NodeCapabilities :=
  (f.registry.find? (·.1 = t)).map (·.2)

/-- The message of the `Error` every capability query throws for an
unregistered type name. -/
def unknownTypeMsg (t : String) : String := "Unknown node type: " ++ t

/-- `ve.dm.NodeFactory.prototype.getChildNodeTypes`. -/
def NodeFactory.getChildNodeTypes (f : NodeFactory) (t : String) :
    Except String (Option (List String)) :=
  match f.lookup t with
  | some c => .ok c.childNodeTypes
  | none => .error (unknownTypeMsg t)

/-- `ve.dm.NodeFactory.prototype.getParentNodeTypes`. -/
def NodeFactory.getParentNodeTypes (f : NodeFactory) (t : String) :
    Except String (Option (List String)) :=
  match f.lookup t with
  | some c => .ok c.parentNodeTypes
  | none => .error (unknownTypeMsg t)

/-- `ve.dm.NodeFactory.prototype.getSuggestedParentNodeTypes`. -/
def NodeFactory.getSuggestedParentNodeTypes (f : NodeFactory) (t : String) :
    Except String (Option (List String)) :=
  match f.lookup t with
  | some c => .ok c.suggestedParentNodeTypes
  | none => .error (unknownTypeMsg t)

/-- `ve.dm.NodeFactory.prototype.canNodeHaveChildren`: `childNodeTypes`
is `null`, or a non-empty array. -/
def NodeFactory.canNodeHaveChildren (f : NodeFactory) (t : String) : Except String Bool :=
  match f.lookup t with
  | some c =>
    .ok (match c.childNodeTypes with
      | none => true
      | some types => 0 < types.length)
  | none => .error (unknownTypeMsg t)

/-- `ve.dm.NodeFactory.prototype.canNodeHaveChildrenNotContent`. -/
def NodeFactory.canNodeHaveChildrenNotContent (f : NodeFactory) (t : String) : Except String Bool :=
  match f.lookup t with
  | some c =>
    match f.canNodeHaveChildren t with
    | .error e => .error e
    | .ok b => .ok (b && !c.canContainContent && !c.isContent)
  | none => .error (unknownTypeMsg t)

/-- `ve.dm.NodeFactory.prototype.isNodeWrapped`. -/
def NodeFactory.isNodeWrapped (f : NodeFactory) (t : String) : Except String Bool :=
  match f.lookup t with
  | some c => .ok c.isWrapped
  | none => .error (unknownTypeMsg t)

/-- `ve.dm.NodeFactory.prototype.isNodeUnwrappable`. -/
def NodeFactory.isNodeUnwrappable (f : NodeFactory) (t : String) : Except String Bool :=
  match f.lookup t with
  | some c =>
    match f.isNodeWrapped t with
    | .error e => .error e
    | .ok b => .ok (b && c.isUnwrappable)
  | none => .error (unknownTypeMsg t)

/-- `ve.dm.NodeFactory.prototype.canNodeContainContent`. -/
def NodeFactory.canNodeContainContent (f : NodeFactory) (t : String) : Except String Bool :=
  match f.lookup t with
  | some c => .ok c.canContainContent
  | none => .error (unknownTypeMsg t)

/-- `ve.dm.NodeFactory.prototype.isNodeContent`. -/
def NodeFactory.isNodeContent (f : NodeFactory) (t : String) : Except String Bool :=
  match f.lookup t with
  | some c => .ok c.isContent
  | none => .error (unknownTypeMsg t)

/-- `ve.dm.NodeFactory.prototype.isNodeFocusable`. -/
def NodeFactory.isNodeFocusable (f : NodeFactory) (t : String) : Except String Bool :=
  match f.lookup t with
  | some c => .ok c.isFocusable
  | none => .error (unknownTypeMsg t)

/-- `ve.dm.NodeFactory.prototype.doesNodeHaveSignificantWhitespace`. -/
def NodeFactory.doesNodeHaveSignificantWhitespace (f : NodeFactory) (t : String) :
    Except String Bool :=
  match f.lookup t with
  | some c => .ok c.hasSignificantWhitespace
  | none => .error (unknownTypeMsg t)

/-- `ve.dm.NodeFactory.prototype.doesNodeHandleOwnChildren`. -/
def NodeFactory.doesNodeHandleOwnChildren (f : NodeFactory) (t : String) : Except String Bool :=
  match f.lookup t with
  | some c => .ok c.handlesOwnChildren
  | none => .error (unknownTypeMsg t)

/-- `ve.dm.NodeFactory.prototype.shouldIgnoreChildren`. -/
def NodeFactory.shouldIgnoreChildren (f : NodeFactory) (t : String) : Except String Bool :=
  match f.lookup t with
  | some c => .ok c.ignoreChildren
  | none => .error (unknownTypeMsg t)

/-- `ve.dm.NodeFactory.prototype.isNodeInternal`. -/
def NodeFactory.isNodeInternal (f : NodeFactory) (t : String) : Except String Bool :=
  match f.lookup t with
  | some c => .ok c.isInternal
  | none => .error (unknownTypeMsg t)

/-- `ve.dm.NodeFactory.prototype.isNodeDeletable`. -/
def NodeFactory.isNodeDeletable (f : NodeFactory) (t : String) : Except String Bool :=
  match f.lookup t with
  | some c => .ok c.isDeletable
  | none => .error (unknownTypeMsg t)

/-- The same query applied to a possibly-undefined type string (the JS code
sometimes passes a variable that may still be `undefined`, which the
registry then rejects as unknown). -/
def NodeFactory.doesNodeHaveSignificantWhitespaceOpt (f : NodeFactory) :
    Option String → Except String Bool
  | some t => f.doesNodeHaveSignificantWhitespace t
  | none => .error (unknownTypeMsg "undefined")

/-- The element linear data: the index-value store plus the flat item
sequence (`ve.dm.ElementLinearData`). -/
structure ElementLinearData where
  store : IndexValueStore
  data : List LinearItem
deriving DecidableEq, Repr

/-- `this.getLength()`: the length of the linear data, as an integer
offset bound. -/
def ElementLinearData.length (d : ElementLinearData) : Int := d.data.length

/-- Modelled from the spec: `LinearData.prototype.getData( offset )` (not
under `src/`) — the item at an offset, `undefined` outside `[0, length)`. -/
def ElementLinearData.getData (d : ElementLinearData) (i : Int) : Option LinearItem :=
  if 0 ≤ i then d.data.get? i.toNat else none

/-- Modelled from the spec: `LinearData.prototype.setData( offset, value )`
(not under `src/`) — in-place update of one slot.  Only in-range offsets
are written (the embedded callers never write out of range). -/
def ElementLinearData.setData (d : ElementLinearData) (i : Int) (v : LinearItem) :
    ElementLinearData :=
  if 0 ≤ i then { d with data := d.data.set i.toNat v } else d

/-- Modelled from the spec: `splice( offset, deleteCount, ...items )` on the
linear data (not under `src/`), for the non-negative offsets the embedded
callers use. -/
def ElementLinearData.splice (d : ElementLinearData) (i : Int) (deleteCount : Nat)
    (ins : List LinearItem) : ElementLinearData :=
  { d with data := d.data.take i.toNat ++ ins ++ d.data.drop (i.toNat + deleteCount) }

/-- Modelled from the spec: `FlatLinearData.prototype.isElementData` (not
under `src/`) — the item at the offset is an element record. -/
def ElementLinearData.isElementData (d : ElementLinearData) (i : Int) : Bool :=
  match d.getData i with
  | some (.element _) => true
  | _ => false

/-- Modelled from the spec: `FlatLinearData.prototype.isCloseElementData`
(not under `src/`) — the item is an element whose type begins with `"/"`. -/
def ElementLinearData.isCloseElementData (d : ElementLinearData) (i : Int) : Bool :=
  match d.getData i with
  | some (.element e) => isCloseType e.type
  | _ => false

/-- Modelled from the spec: `FlatLinearData.prototype.isOpenElementData`
(not under `src/`) — the item is an element that is not a closing marker. -/
def ElementLinearData.isOpenElementData (d : ElementLinearData) (i : Int) : Bool :=
  match d.getData i with
  | some (.element e) => !isCloseType e.type
  | _ => false

/-- Modelled from the spec: `FlatLinearData.prototype.getType` (not under
`src/`) — the element type at the offset with the closing slash stripped,
`undefined` for non-elements. -/
def ElementLinearData.getType (d : ElementLinearData) (i : Int) : Option String :=
  match d.getData i with
  | some (.element e) => some (elemBaseType e)
  | _ => none

/-- `ve.dm.ElementLinearData.prototype.getCharacterData`. -/
def ElementLinearData.getCharacterData (d : ElementLinearData) (i : Int) : String :=
  match d.getData i with
  | some (.char s) => s
  | some (.annChar s _) => s
  | _ => ""

/-- Every element type occurring in the data is registered (under its
`getType` base name).  The program-level invariant ambient in all spec
claims: capability queries over the document's own types never throw. -/
def itemWellTyped (f : NodeFactory) : LinearItem → Bool
  | .element e => (f.lookup (elemBaseType e)).isSome
  | _ => true

/-- All items of the data are well typed with respect to the registry. -/
def ElementLinearData.WellTyped (f : NodeFactory) (d : ElementLinearData) : Prop :=
  ∀ it ∈ d.data, itemWellTyped f it = true

instance (f : NodeFactory) (d : ElementLinearData) : Decidable (d.WellTyped f) :=
  List.decidableBAll _ _

/-- Registered type names are plain names: none begins with the closing
slash (closing markers are synthesized as `"/" + type`, spec §3). -/
def NodeFactory.WF (f : NodeFactory) : Prop :=
  ∀ p ∈ f.registry, isCloseType p.1 = false

instance (f : NodeFactory) : Decidable f.WF := List.decidableBAll _ _

/-- Short-circuiting `||` over exception-carrying booleans. -/
def orE (a b : Except String Bool) : Except String Bool :=
  match a with
  | .ok true => .ok true
  | .ok false => b
  | .error e => .error e

/-- Short-circuiting `&&` over exception-carrying booleans. -/
def andE (a b : Except String Bool) : Except String Bool :=
  match a with
  | .ok false => .ok false
  | .ok true => b
  | .error e => .error e

/-- `!` over an exception-carrying boolean. -/
def notE (a : Except String Bool) : Except String Bool :=
  match a with
  | .ok b => .ok (!b)
  | .error e => .error e

/-- `ve.dm.ElementLinearData.prototype.setAnnotationIndexesAtOffset`:
stores the index list on the item, converting between bare and annotated
characters, and removing the field entirely when the list is empty. -/
def ElementLinearData.setAnnotationIndexesAtOffset (d : ElementLinearData) (offset : Int)
    (indexes : List Nat) : ElementLinearData :=
  if 0 < indexes.length then
    match d.getData offset with
    | some (.element e) => d.setData offset (.element { e with annotations := some indexes })
    | _ => d.setData offset (.annChar (d.getCharacterData offset) indexes)
  else
    match d.getData offset with
    | some (.element e) => d.setData offset (.element { e with annotations := none })
    | _ => d.setData offset (.char (d.getCharacterData offset))

/-- `ve.dm.ElementLinearData.prototype.setAnnotationsAtOffset`: reads the
set's values from the store, re-interns them, and stores the indexes. -/
def ElementLinearData.setAnnotationsAtOffset (d : ElementLinearData) (offset : Int)
    (annSet : List Nat) : Except String ElementLinearData :=
  match d.store.valuesOfE annSet with
  | .error e => .error e
  | .ok vals =>
    let p := d.store.indexes vals
    .ok (ElementLinearData.setAnnotationIndexesAtOffset { d with store := p.1 } offset p.2)

/-- `ve.dm.ElementLinearData.prototype.setAttributeAtOffset`: set or unset
one attribute on an element item; a no-op on non-element offsets. -/
def ElementLinearData.setAttributeAtOffset (d : ElementLinearData) (offset : Int)
    (key : String) (value : Option String) : ElementLinearData :=
  match d.getData offset with
  | some (.element e) =>
    match value with
    | none =>
      match e.attributes with
      | some attrs =>
        d.setData offset (.element { e with attributes := some (attrs.filter (·.1 ≠ key)) })
      | none => d
    | some v =>
      let attrs := e.attributes.getD []
      let attrs2 :=
        if attrs.any (·.1 = key) then attrs.map (fun p => if p.1 = key then (key, v) else p)
        else attrs ++ [(key, v)]
      d.setData offset (.element { e with attributes := some attrs2 })
  | _ => d

/-- `ve.dm.ElementLinearData.prototype.isContentOffset`. -/
def ElementLinearData.isContentOffset (f : NodeFactory) (d : ElementLinearData)
    (offset : Int) : Except String Bool :=
  if offset = 0 ∨ offset = d.length then .ok false
  else
    match d.getData (offset - 1), d.getData offset with
    | some left, some right =>
      match left, right with
      | .element le, .element re =>
        orE (andE (.ok (isCloseType le.type)) (f.isNodeContent (sliceOne le.type)))
          (orE (andE (.ok (!isCloseType re.type)) (f.isNodeContent re.type))
            (andE (.ok (("/" ++ le.type) == re.type)) (f.canNodeContainContent le.type)))
      | _, _ => .ok true
    | _, _ => .ok false

/-- `ve.dm.ElementLinearData.prototype.isStructuralOffset`. -/
def ElementLinearData.isStructuralOffset (f : NodeFactory) (d : ElementLinearData)
    (offset : Int) (unrestricted : Bool) : Except String Bool :=
  if offset = 0 ∨ offset = d.length then .ok true
  else
    match d.getData (offset - 1), d.getData offset with
    | some (.element le), some (.element re) =>
      orE
        (andE (.ok (isCloseType le.type))
          (andE
            (orE (f.canNodeHaveChildren (sliceOne le.type))
              (notE (f.isNodeContent (sliceOne le.type))))
            (orE (.ok (!unrestricted))
              ((f.getParentNodeTypes (sliceOne le.type)).map (·.isNone)))))
        (orE
          (andE (.ok (!isCloseType re.type))
            (andE
              (orE (f.canNodeHaveChildren re.type) (notE (f.isNodeContent re.type)))
              (orE (.ok (!unrestricted))
                ((f.getParentNodeTypes re.type).map (·.isNone)))))
          (andE (.ok (("/" ++ le.type) == re.type))
            (andE (f.canNodeHaveChildrenNotContent le.type)
              (orE (.ok (!unrestricted))
                ((f.getChildNodeTypes le.type).map (·.isNone))))))
    | _, _ => .ok false

/-- The iteration of `ve.dm.ElementLinearData.prototype.getRelativeOffset`
(`while ( i >= 0 && i <= this.getLength() ) { ... }`), with an explicit
fuel argument bounding the number of iterations.  The state mirrors the
JS local variables `i`, `direction`, `distance`, `steps`, `offset`
(here `off`), `turnedAround` and `ignoreChildrenDepth`. -/
def relLoop (f : NodeFactory) (d : ElementLinearData) (cb : Int → Except String Bool)
    (start : Int) : Nat → Int → Int → Nat → Nat → Int → Bool → Int → Except String Int
  | fuel, i, dir, dist, steps, off, turned, depth =>
    if i < 0 ∨ d.length < i then .ok off
    else
      match fuel with
      | 0 => .error "relative offset search out of fuel"
      | fuel' + 1 =>
        let dataOffset := if 0 < dir then i - 1 else i
        let depthE : Except String (Option Int) :=
          match d.getData dataOffset with
          | some (.element e) =>
            match f.shouldIgnoreChildren (elemBaseType e) with
            | .error er => .error er
            | .ok true =>
              let isOpen := !isCloseType e.type
              if (0 < dir ∧ isOpen = true) ∨ (dir < 0 ∧ isOpen = false) then
                .ok (some (depth + 1))
              else if depth - 1 < 0 then .ok none
              else .ok (some (depth - 1))
            | .ok false => .ok (some depth)
          | _ => .ok (some depth)
        match depthE with
        | .error er => .error er
        | .ok none => .ok (-1)
        | .ok (some depth1) =>
          match cb i with
          | .error er => .error er
          | .ok true =>
            if depth1 = 0 then
              if dist = steps + 1 then .ok i
              else relLoop f d cb start fuel' (i + dir) dir dist (steps + 1) i turned depth1
            else relLoop f d cb start fuel' (i + dir) dir dist steps off turned depth1
          | .ok false =>
            if turned = false ∧ steps = 0 ∧
                ((dir < 0 ∧ i = 0) ∨
                  (0 < dir ∧ (i = d.length ∨ d.getType (i - 1) = some "internalList"))) then
              match cb start with
              | .error er => .error er
              | .ok true => .ok start
              | .ok false => relLoop f d cb start fuel' (start + (-dir)) (-dir) 1 0 off true 0
            else relLoop f d cb start fuel' (i + dir) dir dist steps off turned depth1

/-- Fuel sufficient for the whole search including the single turnaround. -/
def relFuel (d : ElementLinearData) : Nat := 2 * d.data.length + 8

/-- The part of `getRelativeOffset` after the `distance === 0` pre-check:
direction choice, `Math.abs`, and the iteration. -/
def relMain (f : NodeFactory) (d : ElementLinearData) (start distance : Int)
    (cb : Int → Except String Bool) : Except String Int :=
  let dir : Int :=
    if start ≤ 0 then 1
    else if d.length ≤ start then -1
    else if 0 < distance then 1 else -1
  relLoop f d cb start (relFuel d) (start + dir) dir distance.natAbs 0 (-1) false 0

/-- `ve.dm.ElementLinearData.prototype.getRelativeOffset`. -/
def ElementLinearData.getRelativeOffset (f : NodeFactory) (d : ElementLinearData)
    (offset distance : Int) (cb : Int → Except String Bool) : Except String Int :=
  if distance = 0 then
    match cb offset with
    | .error e => .error e
    | .ok true => .ok offset
    | .ok false => relMain f d offset 1 cb
  else relMain f d offset distance cb

/-- `ve.dm.ElementLinearData.prototype.getRelativeContentOffset`. -/
def ElementLinearData.getRelativeContentOffset (f : NodeFactory) (d : ElementLinearData)
    (offset distance : Int) : Except String Int :=
  ElementLinearData.getRelativeOffset f d offset distance
    (fun j => ElementLinearData.isContentOffset f d j)

/-- `ve.dm.ElementLinearData.prototype.getNearestContentOffset`.  The
`direction` parameter is `none` for JS `undefined`. -/
def ElementLinearData.getNearestContentOffset (f : NodeFactory) (d : ElementLinearData)
    (offset : Int) (direction : Option Int) : Except String Int :=
  match ElementLinearData.isContentOffset f d offset with
  | .error e => .error e
  | .ok true => .ok offset
  | .ok false =>
    match direction with
    | none =>
      match ElementLinearData.getRelativeContentOffset f d offset (-1),
          ElementLinearData.getRelativeContentOffset f d offset 1 with
      | .error e, _ => .error e
      | .ok _, .error e => .error e
      | .ok left, .ok right =>
        .ok (if offset - left < right - offset then left else right)
    | some dr => ElementLinearData.getRelativeContentOffset f d offset (if 0 < dr then 1 else -1)

/-- `ve.dm.ElementLinearData.prototype.getRelativeStructuralOffset`. -/
def ElementLinearData.getRelativeStructuralOffset (f : NodeFactory) (d : ElementLinearData)
    (offset distance : Int) (unrestricted : Bool) : Except String Int :=
  if distance = 0 ∧ (offset = 0 ∨ offset = d.length) then .ok offset
  else
    ElementLinearData.getRelativeOffset f d offset distance
      (fun j => ElementLinearData.isStructuralOffset f d j unrestricted)

/-- `ve.dm.ElementLinearData.prototype.getNearestStructuralOffset`.  JS
`!direction` is true for both `undefined` and `0`. -/
def ElementLinearData.getNearestStructuralOffset (f : NodeFactory) (d : ElementLinearData)
    (offset : Int) (direction : Option Int) (unrestricted : Bool) : Except String Int :=
  match ElementLinearData.isStructuralOffset f d offset unrestricted with
  | .error e => .error e
  | .ok true => .ok offset
  | .ok false =>
    if direction = none ∨ direction = some 0 then
      match ElementLinearData.getRelativeStructuralOffset f d offset (-1) unrestricted,
          ElementLinearData.getRelativeStructuralOffset f d offset 1 unrestricted with
      | .error e, _ => .error e
      | .ok _, .error e => .error e
      | .ok left, .ok right =>
        .ok (if offset - left < right - offset then left else right)
    else
      ElementLinearData.getRelativeStructuralOffset f d offset
        (if 0 < (direction.getD 0) then 1 else -1) unrestricted

/-- `ve.dm.ElementLinearData.prototype.getAnnotationIndexesFromOffset`:
bounds check, rewind from the closing marker of a content leaf, then the
stored index list (a fresh copy in JS). -/
def ElementLinearData.getAnnotationIndexesFromOffset (f : NodeFactory) (d : ElementLinearData)
    (offset : Int) (ignoreClose : Bool) : Except String (List Nat) :=
  if offset < 0 ∨ d.length < offset then
    .error ("offset " ++ toString offset ++ " out of bounds")
  else
    let offE : Except String Int :=
      if ignoreClose = false ∧ d.isCloseElementData offset then
        match d.getType offset with
        | some t =>
          match f.canNodeHaveChildren t with
          | .error e => .error e
          | .ok true => .ok offset
          | .ok false => ElementLinearData.getRelativeContentOffset f d offset (-1)
        | none => .ok offset
      else .ok offset
    match offE with
    | .error e => .error e
    | .ok off2 =>
      .ok (match d.getData off2 with
        | some (.annChar _ anns) => anns
        | some (.element e) => e.annotations.getD []
        | _ => [])

/-- JS `string.match( /\s/ )` as a boolean: some character of the string
is whitespace. -/
def hasWhitespaceChar (s : String) : Bool := s.data.any Char.isWhitespace

/-- `AnnotationSet#addSet` on index lists: union, keeping left order. -/
def annAddSet (left right : List Nat) : List Nat :=
  left ++ right.filter (fun ix => ix ∉ left)

/-- `AnnotationSet#removeSet` on index lists. -/
def annRemoveSet (left toRemove : List Nat) : List Nat :=
  left.filter (fun ix => ix ∉ toRemove)

/-- Modelled from the spec:
`AnnotationSet#getComparableAnnotationsFromSet` (not under `src/`) — the
spec describes the non-`all` accumulation of `getAnnotationsFromRange` as
an intersection of annotation sets, which on a deduplicated store is an
intersection of index lists. -/
def annComparableSet (left right : List Nat) : List Nat :=
  left.filter (fun ix => ix ∈ right)

/-- The `for` loop of
`ve.dm.ElementLinearData.prototype.getAnnotationsFromRange`, structurally
recursive on the number of remaining positions.  `left = none` mirrors the
not-yet-assigned `left` variable. -/
def annRangeLoop (f : NodeFactory) (d : ElementLinearData) (all : Bool) (rangeLen : Int) :
    Nat → Int → Option (List Nat) → Int → Except String (List Nat)
  | 0, _i, left, _depth => .ok (left.getD [])
  | k + 1, i, left, depth =>
    let pre : Except String (Bool × Int) :=
      match d.getType i with
      | some t =>
        match f.shouldIgnoreChildren t with
        | .error e => .error e
        | .ok ign =>
          let depth1 := if ign then depth + (if d.isOpenElementData i then 1 else -1) else depth
          match f.isNodeContent t with
          | .error e => .error e
          | .ok isC => .ok (!isC, depth1)
      | none => .ok (false, depth)
    match pre with
    | .error e => .error e
    | .ok (skip, depth1) =>
      if skip then annRangeLoop f d all rangeLen k (i + 1) left depth1
      else if 0 < depth1 then annRangeLoop f d all rangeLen k (i + 1) left depth1
      else
        match left with
        | none =>
          match ElementLinearData.getAnnotationIndexesFromOffset f d i false with
          | .error e => .error e
          | .ok l0 =>
            if rangeLen = 0 ∨ rangeLen = 1 then .ok l0
            else annRangeLoop f d all rangeLen k (i + 1) (some l0) depth1
        | some lft =>
          match ElementLinearData.getAnnotationIndexesFromOffset f d i false with
          | .error e => .error e
          | .ok rgt =>
            if all ∧ rgt ≠ [] then
              annRangeLoop f d all rangeLen k (i + 1) (some (annAddSet lft rgt)) depth1
            else if all = false then
              if rgt = [] then .ok []
              else
                let lft2 := annComparableSet lft rgt
                if lft2 = [] then .ok lft2
                else annRangeLoop f d all rangeLen k (i + 1) (some lft2) depth1
            else annRangeLoop f d all rangeLen k (i + 1) (some lft) depth1

/-- `ve.dm.ElementLinearData.prototype.getAnnotationsFromRange` over the
range `[start, stop)`, as a list of store indexes. -/
def ElementLinearData.getAnnotationsFromRange (f : NodeFactory) (d : ElementLinearData)
    (start stop : Int) (all : Bool) : Except String (List Nat) :=
  annRangeLoop f d all (stop - start) (stop - start).toNat start none 0

/-- The loop of
`ve.dm.ElementLinearData.prototype.countNonInternalElements`, structurally
recursive on the number of remaining positions.  A `limit` of `0` models
the absent (falsy) limit argument. -/
def countLoop (f : NodeFactory) (d : ElementLinearData) (limit : Nat) :
    Nat → Int → Int → Nat → Except String Nat
  | 0, _i, _depth, count => .ok count
  | k + 1, i, internalDepth, count =>
    match d.getType i with
    | some t =>
      match f.isNodeInternal t with
      | .error e => .error e
      | .ok true =>
        countLoop f d limit k (i + 1)
          (internalDepth + (if d.isOpenElementData i then 1 else -1)) count
      | .ok false =>
        if internalDepth = 0 then
          if limit ≠ 0 ∧ limit ≤ count + 1 then .ok (count + 1)
          else countLoop f d limit k (i + 1) internalDepth (count + 1)
        else countLoop f d limit k (i + 1) internalDepth count
    | none =>
      if internalDepth = 0 then
        if limit ≠ 0 ∧ limit ≤ count + 1 then .ok (count + 1)
        else countLoop f d limit k (i + 1) internalDepth (count + 1)
      else countLoop f d limit k (i + 1) internalDepth count

/-- `ve.dm.ElementLinearData.prototype.countNonInternalElements`. -/
def ElementLinearData.countNonInternalElements (f : NodeFactory) (d : ElementLinearData)
    (limit : Nat) : Except String Nat :=
  countLoop f d limit d.data.length 0 0 0

/-- `ve.dm.ElementLinearData.prototype.hasContent`. -/
def ElementLinearData.hasContent (f : NodeFactory) (d : ElementLinearData) :
    Except String Bool :=
  orE
    (match ElementLinearData.countNonInternalElements f d 3 with
      | .error e => .error e
      | .ok c => .ok (decide (2 < c)))
    (andE (.ok (d.isElementData 0))
      (andE (notE (f.canNodeContainContent ((d.getType 0).getD "")))
        (notE (f.isNodeInternal ((d.getType 0).getD "")))))

/-- The rule set accepted by `sanitize`.  An absent JS `blacklist` /
`conversions` is the empty list; booleans default to falsy. -/
structure SanitizeRules where
  blacklist : List String := []
  conversions : List (String × String) := []
  removeOriginalDomElements : Bool := false
  plainText : Bool := false
  allowBreaks : Bool := false
  preserveHtmlWhitespace : Bool := false
  nodeSanitization : Bool := false
  keepEmptyContentBranches : Bool := false
deriving Repr

/-- The continuation back into the sanitize loop: next index, the tracked
`contentElement`, the persistent `type` variable, and the data. -/
abbrev SanCont := Int → Option Element → Option String → ElementLinearData →
  Except String ElementLinearData

/-- `ve.getProp( this.getData( i ), 'internal', 'generated' )`. -/
def getGeneratedAt (d : ElementLinearData) (i : Int) : Bool :=
  match d.getData i with
  | some (.element e) => (e.internal.map (·.generated)).getD false
  | _ => false

/-- `ve.getProp( this.getData( i ), 'internal', 'whitespace' )`, as the
boolean the embedded code branches on. -/
def getWhitespaceAt (d : ElementLinearData) (i : Int) : Bool :=
  match d.getData i with
  | some (.element e) => (e.internal.map (·.whitespace)).getD false
  | _ => false

/-- `delete internal.generated`, dropping `internal` when it became empty
(`ve.isEmptyObject`). -/
def clearGeneratedAt (d : ElementLinearData) (i : Int) : ElementLinearData :=
  match d.getData i with
  | some (.element e) =>
    let ni : Option InternalData :=
      match e.internal with
      | some it => if it.whitespace then some { it with generated := false } else none
      | none => none
    d.setData i (.element { e with internal := ni })
  | _ => d

/-- `delete internal.whitespace`, dropping `internal` when it became empty. -/
def clearWhitespaceAt (d : ElementLinearData) (i : Int) : ElementLinearData :=
  match d.getData i with
  | some (.element e) =>
    let ni : Option InternalData :=
      match e.internal with
      | some it => if it.generated then some { it with whitespace := false } else none
      | none => none
    d.setData i (.element { e with internal := ni })
  | _ => d

/-- `delete this.getData( i ).originalDomElementsIndex`. -/
def clearODEAt (d : ElementLinearData) (i : Int) : ElementLinearData :=
  match d.getData i with
  | some (.element e) => d.setData i (.element { e with originalDomElementsIndex := none })
  | _ => d

/-- Replace the character at a slot by a space, preserving its
annotation pair shape (`this.data[ i ] = ' '` / `this.data[ i ][ 0 ] = ' '`). -/
def replaceCharWithSpaceAt (d : ElementLinearData) (i : Int) : ElementLinearData :=
  match d.getData i with
  | some (.char _) => d.setData i (.char " ")
  | some (.annChar _ anns) => d.setData i (.annChar " " anns)
  | _ => d

/-- The trailing part of each sanitize iteration: blacklisted / plain-text
annotation stripping, then open-element cleanup, then the step to `i + 1`.
The per-type `nodeSanitization` hook dispatches to external node classes
and is outside the embedded core (`rules.nodeSanitization` is false in
every claim). -/
def sanTail (f : NodeFactory) (rules : SanitizeRules) (setToRemove : List Nat)
    (recur : SanCont) (i : Int) (contentElement : Option Element) (typeVar : Option String)
    (d : ElementLinearData) : Except String ElementLinearData :=
  match ElementLinearData.getAnnotationIndexesFromOffset f d i true with
  | .error e => .error e
  | .ok anns =>
    let proceed : Except String ElementLinearData :=
      if anns.isEmpty then .ok d
      else if rules.plainText then ElementLinearData.setAnnotationsAtOffset d i []
      else if 0 < setToRemove.length then
        ElementLinearData.setAnnotationsAtOffset d i (annRemoveSet anns setToRemove)
      else .ok d
    match proceed with
    | .error e => .error e
    | .ok d7 =>
      let d8 :=
        if d7.isOpenElementData i then
          (if rules.removeOriginalDomElements then clearODEAt d7 i else d7)
        else d7
      recur (i + 1) contentElement typeVar d8

/-- The tail of the element branch of a sanitize iteration: empty
content-branch elision, whitespace-metadata stripping, and the tracking of
the current `contentElement`. -/
def sanRest (f : NodeFactory) (rules : SanitizeRules) (setToRemove : List Nat)
    (recur : SanCont) (i : Int) (contentElement : Option Element) (canCC isOpen : Bool)
    (type2 : String) (d2 : ElementLinearData) : Except String ElementLinearData :=
  if !rules.keepEmptyContentBranches && isOpen && d2.isCloseElementData (i + 1) &&
      !getGeneratedAt d2 i && canCC then
    recur i contentElement (some type2) (d2.splice i 2 [])
  else
    let d5 :=
      if !rules.preserveHtmlWhitespace && getWhitespaceAt d2 i then clearWhitespaceAt d2 i
      else d2
    let ce2 :=
      if canCC then
        (if isOpen then
          (match d5.getData i with
            | some (.element ec) => some ec
            | _ => none)
        else none)
      else contentElement
    sanTail f rules setToRemove recur i ce2 (some type2) d5

/-- The character branch of a sanitize iteration: plain-newline handling. -/
def sanStepChar (f : NodeFactory) (rules : SanitizeRules) (setToRemove : List Nat)
    (recur : SanCont) (i : Int) (contentElement : Option Element) (typeVar : Option String)
    (d : ElementLinearData) : Except String ElementLinearData :=
  if d.getCharacterData i == "\n" then
    match f.doesNodeHaveSignificantWhitespaceOpt typeVar with
    | .error e => .error e
    | .ok sig =>
      if !sig then
        if hasWhitespaceChar (d.getCharacterData (i + 1)) ||
            hasWhitespaceChar (d.getCharacterData (i - 1)) then
          recur i contentElement typeVar (d.splice i 1 [])
        else
          sanTail f rules setToRemove recur i contentElement typeVar (replaceCharWithSpaceAt d i)
      else sanTail f rules setToRemove recur i contentElement typeVar d
  else sanTail f rules setToRemove recur i contentElement typeVar d

/-- The element branch of a sanitize iteration: type conversion, plain-text
paragraph conversion, blacklist removal, and break splitting. -/
def sanStepElement (f : NodeFactory) (rules : SanitizeRules) (setToRemove : List Nat)
    (recur : SanCont) (i : Int) (contentElement : Option Element) (d : ElementLinearData)
    (e0 : Element) : Except String ElementLinearData :=
  let type0 := elemBaseType e0
  match f.canNodeContainContent type0 with
  | .error er => .error er
  | .ok canCC =>
    let isOpen := !isCloseType e0.type
    let conv := (rules.conversions.find? (·.1 = type0)).map (·.2)
    let type1 := conv.getD type0
    let d1 :=
      match conv with
      | some nt => d.setData i (.element { e0 with type := (if isOpen then "" else "/") ++ nt })
      | none => d
    let plainConv := rules.plainText && type1 != "paragraph" && canCC
    let type2 := if plainConv then "paragraph" else type1
    let d2 :=
      if plainConv then
        d1.setData i
          (.element { type := (if d1.isCloseElementData i then "/" else "") ++ "paragraph" })
      else d1
    if rules.blacklist.contains type2 ||
        (rules.plainText && type2 != "paragraph" && type2 != "internalList") then
      let d3 := d2.splice i 1 []
      let d4 := if isOpen && getGeneratedAt d3 i then clearGeneratedAt d3 i else d3
      recur i contentElement (some type2) d4
    else if !rules.allowBreaks && type2 == "break" then
      match contentElement with
      | some ce =>
        let d3 :=
          if d2.isOpenElementData (i - 1) && d2.isCloseElementData (i + 2) then d2.splice i 2 []
          else d2.splice i 2 [.element { type := "/" ++ ce.type }, .element ce]
        recur i contentElement (some type2) d3
      | none => sanRest f rules setToRemove recur i contentElement canCC isOpen type2 d2
    else sanRest f rules setToRemove recur i contentElement canCC isOpen type2 d2

/-- The `for` loop of `ve.dm.ElementLinearData.prototype.sanitize`, with an
explicit fuel bounding the number of iterations (splices shorten the data
or consume `break` elements, so the iteration count is bounded). -/
def sanLoop (f : NodeFactory) (rules : SanitizeRules) (setToRemove : List Nat) :
    Nat → Int → Option Element → Option String → ElementLinearData →
      Except String ElementLinearData
  | 0, _, _, _, _ => .error "sanitize out of fuel"
  | fuel + 1, i, contentElement, typeVar, d =>
    if d.length ≤ i then .ok d
    else
      match d.getData i with
      | some (.element e0) =>
        sanStepElement f rules setToRemove (sanLoop f rules setToRemove fuel) i contentElement
          d e0
      | _ =>
        sanStepChar f rules setToRemove (sanLoop f rules setToRemove fuel) i contentElement
          typeVar d

/-- Fuel sufficient for the sanitize scan of a document. -/
def sanFuel (d : ElementLinearData) : Nat := 4 * d.data.length + 8

/-- The blacklisted-annotation filter computed before the sanitize loop:
the indexes of `allAnnotations` whose value name is blacklisted, or is
`textStyle/span` while original DOM element references are being removed. -/
def sanSetToRemoveE (s : IndexValueStore) (rules : SanitizeRules) :
    List Nat → Except String (List Nat)
  | [] => .ok []
  | ix :: rest =>
    match s.value ix with
    | .error e => .error e
    | .ok v =>
      match sanSetToRemoveE s rules rest with
      | .error e => .error e
      | .ok keep =>
        .ok (if rules.blacklist.contains v.name ||
              (v.name == "textStyle/span" && rules.removeOriginalDomElements) then ix :: keep
          else keep)

/-- The pre-loop mutation of stored annotation values when original DOM
element references are removed (the JS deletes the field on the shared
annotation objects held by the store). -/
def storeClearODE (s : IndexValueStore) (used : List Nat) : IndexValueStore :=
  ⟨s.values.enum.map (fun p =>
    if p.1 ∈ used ∧ p.2.originalDomElementsIndex ≠ none then
      { p.2 with originalDomElementsIndex := none }
    else p.2)⟩

/-- `ve.dm.ElementLinearData.prototype.sanitize`. -/
def ElementLinearData.sanitize (f : NodeFactory) (rules : SanitizeRules)
    (d : ElementLinearData) : Except String ElementLinearData :=
  match ElementLinearData.getAnnotationsFromRange f d 0 d.length true with
  | .error e => .error e
  | .ok allAnns =>
    if rules.plainText then sanLoop f rules [] (sanFuel d) 0 none none d
    else
      let store1 := if rules.removeOriginalDomElements then storeClearODE d.store allAnns
        else d.store
      let d0 := { d with store := store1 }
      match sanSetToRemoveE store1 rules allAnns with
      | .error e => .error e
      | .ok setToRemove => sanLoop f rules setToRemove (sanFuel d) 0 none none d0

/-- A small capability registry used by the concrete witnesses: a content
branch type `paragraph` and a content branch type `heading`. -/
def exFactory : NodeFactory :=
  ⟨[("paragraph", { canContainContent := true }), ("heading", { canContainContent := true })]⟩

/-- An opening paragraph element. -/
def pOpen : LinearItem := .element { type := "paragraph" }

/-- A closing paragraph marker. -/
def pClose : LinearItem := .element { type := "/paragraph" }

/-- `<paragraph>a</paragraph><paragraph>b</paragraph>`: content offsets
1, 2, 4 and 5; offset 3 is equidistant from 2 and 4. -/
def exDataTwoParas : ElementLinearData :=
  ⟨⟨[]⟩, [pOpen, .char "a", pClose, pOpen, .char "b", pClose]⟩

/-- `<paragraph>ab</paragraph>`: structural offsets 0 and 4; offset 2 is
equidistant from both. -/
def exDataOnePara : ElementLinearData :=
  ⟨⟨[]⟩, [pOpen, .char "a", .char "b", pClose]⟩

/-- A registry with a single non-content branch type that may appear
anywhere and hold anything (`parentNodeTypes` and `childNodeTypes` both
null). -/
def exStructFactory : NodeFactory := ⟨[("widget", {})]⟩

/-- `<widget></widget>`: offset 1 is inside an empty unrestricted
non-content branch. -/
def exStructData : ElementLinearData :=
  ⟨⟨[]⟩, [.element { type := "widget" }, .element { type := "/widget" }]⟩

/-- A registry with a single non-content, non-internal leaf type
(`childNodeTypes` is the empty list, so it is not a branch). -/
def exLeafFactory : NodeFactory := ⟨[("foo", { childNodeTypes := some [] })]⟩

/-- `<foo></foo>`: two non-internal items whose first element is a
non-content, non-internal leaf. -/
def exLeafData : ElementLinearData :=
  ⟨⟨[]⟩, [.element { type := "foo" }, .element { type := "/foo" }]⟩

/-- The store holding one bold annotation, for the sanitize scenario. -/
def exBoldStore : IndexValueStore := ⟨[{ name := "textStyle/bold" }]⟩

/-- A heading containing three bold-annotated characters. -/
def exHeadingData : ElementLinearData :=
  ⟨exBoldStore,
    [.element { type := "heading" }, .annChar "F" [0], .annChar "o" [0], .annChar "o" [0],
      .element { type := "/heading" }]⟩

/-- A predicate callback satisfied only at offset 1, for the
relative-offset counterexample. -/
def exCb1 : Int → Except String Bool := fun j => .ok (decide (j = 1))

/-- The specification's description of an interior content offset: a plain
or annotated character to the left or right, or the closing marker of an
`isNodeContent` type on the left, or the opening element of an
`isNodeContent` type on the right, or an opening element directly followed
by its own closing marker whose type satisfies `canNodeContainContent`. -/
def contentOffsetSpec (f : NodeFactory) (d : ElementLinearData) (offset : Int) : Prop :=
  (∃ s, d.getData (offset - 1) = some (.char s)) ∨
  (∃ s anns, d.getData (offset - 1) = some (.annChar s anns)) ∨
  (∃ s, d.getData offset = some (.char s)) ∨
  (∃ s anns, d.getData offset = some (.annChar s anns)) ∨
  (∃ e t, d.getData (offset - 1) = some (.element e) ∧ e.type = "/" ++ t ∧
    f.isNodeContent t = .ok true) ∨
  (∃ e, d.getData offset = some (.element e) ∧ isCloseType e.type = false ∧
    f.isNodeContent e.type = .ok true) ∨
  (∃ le re, d.getData (offset - 1) = some (.element le) ∧
    d.getData offset = some (.element re) ∧ isCloseType le.type = false ∧
    re.type = "/" ++ le.type ∧ f.canNodeContainContent le.type = .ok true)

/-- The result invariant of the relative-offset search: `-1`, or an
in-range offset satisfying the callback. -/
def relInv (d : ElementLinearData) (cb : Int → Except String Bool) (x : Int) : Prop :=
  x = -1 ∨ (0 ≤ x ∧ x ≤ d.length ∧ cb x = .ok true)

/-- Remaining-iteration bound for the search loop: steps to the edge in
the current direction, plus a reserve for the single turnaround. -/
def relMeasure (d : ElementLinearData) (i dir : Int) (turned : Bool) : Nat :=
  (if dir = 1 then (d.length + 1 - i).toNat else (i + 1).toNat) +
    (if turned then 0 else d.data.length + 4)

lemma orE_eq_ok {a b : Except String Bool} {c : Bool} :
    orE a b = .ok c ↔ (a = .ok true ∧ c = true) ∨ (a = .ok false ∧ b = .ok c) := by
  rcases a with e | b1
  · simp [orE]
  · rcases b1 <;> rcases c <;> simp [orE]

lemma andE_eq_ok {a b : Except String Bool} {c : Bool} :
    andE a b = .ok c ↔ (a = .ok false ∧ c = false) ∨ (a = .ok true ∧ b = .ok c) := by
  rcases a with e | b1
  · simp [andE]
  · rcases b1 <;> rcases c <;> simp [andE]

lemma notE_eq_ok {a : Except String Bool} {c : Bool} :
    notE a = .ok c ↔ a = .ok (!c) := by
  rcases a with e | b1
  · simp [notE]
  · rcases b1 <;> rcases c <;> simp [notE]

lemma exceptMap_eq_ok {α β : Type} {g : α → β} {x : Except String α} {c : β} :
    x.map g = .ok c ↔ ∃ v, x = .ok v ∧ g v = c := by
  rcases x with e | v
  · simp [Except.map]
  · simp [Except.map, eq_comm]

lemma mem_of_getData {d : ElementLinearData} {i : Int} {it : LinearItem}
    (h : d.getData i = some it) : it ∈ d.data := by
  unfold ElementLinearData.getData at h
  split at h
  · exact List.get?_mem h
  · exact absurd h (by simp)

lemma getData_isSome_of_lt {d : ElementLinearData} {i : Int} (h0 : 0 ≤ i)
    (h1 : i < d.length) : ∃ it, d.getData i = some it := by
  unfold ElementLinearData.getData
  rw [if_pos h0]
  cases hg : d.data.get? i.toNat with
  | some it => exact ⟨it, rfl⟩
  | none =>
    rw [List.get?_eq_none] at hg
    unfold ElementLinearData.length at h1
    omega

/-- C7: with an empty index list, `setAnnotationIndexesAtOffset` (and
`setAnnotationsAtOffset` with an empty set) turns an annotated character
pair back into the bare character, and deletes an element's annotation
field entirely instead of storing an empty list. -/
theorem setAnnotationIndexes_empty_cleanup (d : ElementLinearData) (offset : Int) :
    (∀ s anns, d.getData offset = some (.annChar s anns) →
      d.setAnnotationIndexesAtOffset offset [] = d.setData offset (.char s) ∧
      d.setAnnotationsAtOffset offset [] = .ok (d.setData offset (.char s))) ∧
    (∀ e, d.getData offset = some (.element e) →
      d.setAnnotationIndexesAtOffset offset [] =
        d.setData offset (.element { e with annotations := none }) ∧
      d.setAnnotationsAtOffset offset [] =
        .ok (d.setData offset (.element { e with annotations := none }))) := by
  constructor
  · intro s anns h
    have h1 : d.setAnnotationIndexesAtOffset offset [] = d.setData offset (.char s) := by
      unfold ElementLinearData.setAnnotationIndexesAtOffset
      simp [h, ElementLinearData.getCharacterData]
    refine ⟨h1, ?_⟩
    unfold ElementLinearData.setAnnotationsAtOffset
    simp [IndexValueStore.valuesOfE, IndexValueStore.indexes, h1]
  · intro e h
    have h1 : d.setAnnotationIndexesAtOffset offset [] =
        d.setData offset (.element { e with annotations := none }) := by
      unfold ElementLinearData.setAnnotationIndexesAtOffset
      simp [h]
    refine ⟨h1, ?_⟩
    unfold ElementLinearData.setAnnotationsAtOffset
    simp [IndexValueStore.valuesOfE, IndexValueStore.indexes, h1]

/-- Witness for C7 at a concrete annotated character and a concrete
element. -/
theorem setAnnotationIndexes_empty_cleanup_witness :
    ElementLinearData.setAnnotationIndexesAtOffset exHeadingData 1 [] =
      ElementLinearData.setData exHeadingData 1 (.char "F") ∧
    ElementLinearData.setAnnotationIndexesAtOffset exHeadingData 0 [] =
      ElementLinearData.setData exHeadingData 0 (.element { type := "heading" }) := by
  constructor
  · exact ((setAnnotationIndexes_empty_cleanup exHeadingData 1).1 "F" [0] rfl).1
  · exact ((setAnnotationIndexes_empty_cleanup exHeadingData 0).2 { type := "heading" } rfl).1

/-- C8: every capability query on the node factory fails with the
unknown-type error for an unregistered type name, and never fails for a
registered one. -/
theorem nodeFactory_unknown_type_errors (f : NodeFactory) (t : String) :
    (f.lookup t = none →
      f.getChildNodeTypes t = .error (unknownTypeMsg t) ∧
      f.getParentNodeTypes t = .error (unknownTypeMsg t) ∧
      f.getSuggestedParentNodeTypes t = .error (unknownTypeMsg t) ∧
      f.canNodeHaveChildren t = .error (unknownTypeMsg t) ∧
      f.canNodeHaveChildrenNotContent t = .error (unknownTypeMsg t) ∧
      f.isNodeWrapped t = .error (unknownTypeMsg t) ∧
      f.isNodeUnwrappable t = .error (unknownTypeMsg t) ∧
      f.canNodeContainContent t = .error (unknownTypeMsg t) ∧
      f.isNodeContent t = .error (unknownTypeMsg t) ∧
      f.isNodeFocusable t = .error (unknownTypeMsg t) ∧
      f.doesNodeHaveSignificantWhitespace t = .error (unknownTypeMsg t) ∧
      f.doesNodeHandleOwnChildren t = .error (unknownTypeMsg t) ∧
      f.shouldIgnoreChildren t = .error (unknownTypeMsg t) ∧
      f.isNodeInternal t = .error (unknownTypeMsg t) ∧
      f.isNodeDeletable t = .error (unknownTypeMsg t)) ∧
    (∀ c, f.lookup t = some c →
      (∃ v, f.getChildNodeTypes t = .ok v) ∧
      (∃ v, f.getParentNodeTypes t = .ok v) ∧
      (∃ v, f.getSuggestedParentNodeTypes t = .ok v) ∧
      (∃ b, f.canNodeHaveChildren t = .ok b) ∧
      (∃ b, f.canNodeHaveChildrenNotContent t = .ok b) ∧
      (∃ b, f.isNodeWrapped t = .ok b) ∧
      (∃ b, f.isNodeUnwrappable t = .ok b) ∧
      (∃ b, f.canNodeContainContent t = .ok b) ∧
      (∃ b, f.isNodeContent t = .ok b) ∧
      (∃ b, f.isNodeFocusable t = .ok b) ∧
      (∃ b, f.doesNodeHaveSignificantWhitespace t = .ok b) ∧
      (∃ b, f.doesNodeHandleOwnChildren t = .ok b) ∧
      (∃ b, f.shouldIgnoreChildren t = .ok b) ∧
      (∃ b, f.isNodeInternal t = .ok b) ∧
      (∃ b, f.isNodeDeletable t = .ok b)) := by
  constructor
  · intro h
    refine ⟨?_, ?_, ?_, ?_, ?_, ?_, ?_, ?_, ?_, ?_, ?_, ?_, ?_, ?_, ?_⟩ <;>
      simp [NodeFactory.getChildNodeTypes, NodeFactory.getParentNodeTypes,
        NodeFactory.getSuggestedParentNodeTypes, NodeFactory.canNodeHaveChildren,
        NodeFactory.canNodeHaveChildrenNotContent, NodeFactory.isNodeWrapped,
        NodeFactory.isNodeUnwrappable, NodeFactory.canNodeContainContent,
        NodeFactory.isNodeContent, NodeFactory.isNodeFocusable,
        NodeFactory.doesNodeHaveSignificantWhitespace, NodeFactory.doesNodeHandleOwnChildren,
        NodeFactory.shouldIgnoreChildren, NodeFactory.isNodeInternal,
        NodeFactory.isNodeDeletable, h]
  · intro c h
    refine ⟨?_, ?_, ?_, ?_, ?_, ?_, ?_, ?_, ?_, ?_, ?_, ?_, ?_, ?_, ?_⟩ <;>
      simp [NodeFactory.getChildNodeTypes, NodeFactory.getParentNodeTypes,
        NodeFactory.getSuggestedParentNodeTypes, NodeFactory.canNodeHaveChildren,
        NodeFactory.canNodeHaveChildrenNotContent, NodeFactory.isNodeWrapped,
        NodeFactory.isNodeUnwrappable, NodeFactory.canNodeContainContent,
        NodeFactory.isNodeContent, NodeFactory.isNodeFocusable,
        NodeFactory.doesNodeHaveSignificantWhitespace, NodeFactory.doesNodeHandleOwnChildren,
        NodeFactory.shouldIgnoreChildren, NodeFactory.isNodeInternal,
        NodeFactory.isNodeDeletable, h]

/-- Witness for C8: the concrete registry rejects an unregistered name and
answers for a registered one. -/
theorem nodeFactory_unknown_type_errors_witness :
    exFactory.isNodeContent "nosuchtype" = .error (unknownTypeMsg "nosuchtype") ∧
    (∃ b, exFactory.canNodeContainContent "paragraph" = .ok b) := by
  constructor
  · exact ((nodeFactory_unknown_type_errors exFactory "nosuchtype").1 rfl).2.2.2.2.2.2.2.2.1
  · exact ((nodeFactory_unknown_type_errors exFactory "paragraph").2
      { canContainContent := true } rfl).2.2.2.2.2.2.2.1

/-- C9: on an offset that does not hold an element (a character, an
annotated character, or no item at all), `setAttributeAtOffset` leaves the
linear data unchanged for every key and value. -/
theorem setAttributeAtOffset_non_element_frame (d : ElementLinearData) (offset : Int)
    (key : String) (value : Option String)
    (h : ∀ e : Element, d.getData offset ≠ some (.element e)) :
    d.setAttributeAtOffset offset key value = d := by
  unfold ElementLinearData.setAttributeAtOffset
  cases hg : d.getData offset with
  | none => rfl
  | some it =>
    cases it with
    | char s => rfl
    | annChar s anns => rfl
    | element e => exact absurd hg (h e)

/-- Witness for C9 at a character offset, an annotated-character offset and
an out-of-range offset. -/
theorem setAttributeAtOffset_non_element_frame_witness :
    ElementLinearData.setAttributeAtOffset exDataOnePara 1 "k" (some "v") = exDataOnePara ∧
    ElementLinearData.setAttributeAtOffset exHeadingData 2 "k" none = exHeadingData ∧
    ElementLinearData.setAttributeAtOffset exDataOnePara 9 "k" (some "v") = exDataOnePara := by
  refine ⟨?_, ?_, ?_⟩
  · exact setAttributeAtOffset_non_element_frame exDataOnePara 1 "k" (some "v")
      (fun e he => by
        rw [show exDataOnePara.getData 1 = some (.char "a") from rfl] at he
        exact absurd (Option.some.inj he) (by simp))
  · exact setAttributeAtOffset_non_element_frame exHeadingData 2 "k" none
      (fun e he => by
        rw [show exHeadingData.getData 2 = some (.annChar "o" [0]) from rfl] at he
        exact absurd (Option.some.inj he) (by simp))
  · exact setAttributeAtOffset_non_element_frame exDataOnePara 9 "k" (some "v")
      (fun e he => by
        rw [show exDataOnePara.getData 9 = none from rfl] at he
        exact absurd he (by simp))

lemma structDisj_mono {a0 b0 c0 : Except String Bool} {b : Bool}
    (h : andE a0 (andE b0 (orE (.ok false) c0)) = .ok b) :
    andE a0 (andE b0 (orE (.ok true) c0)) = .ok true ∨
    (andE a0 (andE b0 (orE (.ok true) c0)) = .ok false ∧ b = false) := by
  have horf : orE (Except.ok false) c0 = c0 := rfl
  rw [horf] at h
  rcases andE_eq_ok.1 h with ⟨h0, hb⟩ | ⟨h0, h1⟩
  · right
    rw [h0]
    exact ⟨rfl, hb⟩
  · rcases andE_eq_ok.1 h1 with ⟨h2, hb⟩ | ⟨h2, h3⟩
    · right
      rw [h0, h2]
      exact ⟨rfl, hb⟩
    · left
      rw [h0, h2]
      rfl

/-- C4: `isStructuralOffset` is true at both document edges for either
value of `unrestricted`, and every offset accepted with
`unrestricted = true` is also accepted with `unrestricted = false`. -/
theorem isStructuralOffset_edges_and_monotone (f : NodeFactory) (d : ElementLinearData) :
    (∀ u, ElementLinearData.isStructuralOffset f d 0 u = .ok true ∧
      ElementLinearData.isStructuralOffset f d d.length u = .ok true) ∧
    (∀ offset, ElementLinearData.isStructuralOffset f d offset true = .ok true →
      ElementLinearData.isStructuralOffset f d offset false = .ok true) := by
  constructor
  · intro u
    constructor <;> simp [ElementLinearData.isStructuralOffset]
  · intro offset h
    unfold ElementLinearData.isStructuralOffset at h ⊢
    by_cases hedge : offset = 0 ∨ offset = d.length
    · simp [hedge]
    · rw [if_neg hedge] at h ⊢
      rcases hl : d.getData (offset - 1) with _ | itl
      · rw [hl] at h
        simp at h
      rcases hr : d.getData offset with _ | itr
      · rw [hl, hr] at h
        cases itl <;> simp at h
      rw [hl, hr] at h
      cases itl with
      | char s => simp at h
      | annChar s anns => simp at h
      | element le =>
        cases itr with
        | char s => simp at h
        | annChar s anns => simp at h
        | element re =>
          simp only [Bool.not_true, Bool.not_false] at h ⊢
          rcases orE_eq_ok.1 h with ⟨h1, _⟩ | ⟨h1, h2⟩
          · rcases structDisj_mono h1 with h1f | ⟨_, hcon⟩
            · exact orE_eq_ok.2 (Or.inl ⟨h1f, rfl⟩)
            · exact absurd hcon (by simp)
          · rcases structDisj_mono h1 with h1f | ⟨h1f, _⟩
            · exact orE_eq_ok.2 (Or.inl ⟨h1f, rfl⟩)
            · refine orE_eq_ok.2 (Or.inr ⟨h1f, ?_⟩)
              rcases orE_eq_ok.1 h2 with ⟨h3, _⟩ | ⟨h3, h4⟩
              · rcases structDisj_mono h3 with h3f | ⟨_, hcon⟩
                · exact orE_eq_ok.2 (Or.inl ⟨h3f, rfl⟩)
                · exact absurd hcon (by simp)
              · rcases structDisj_mono h3 with h3f | ⟨h3f, _⟩
                · exact orE_eq_ok.2 (Or.inl ⟨h3f, rfl⟩)
                · refine orE_eq_ok.2 (Or.inr ⟨h3f, ?_⟩)
                  rcases structDisj_mono h4 with h4f | ⟨_, hcon⟩
                  · exact h4f
                  · exact absurd hcon (by simp)

/-- Witness for C4: a concrete offset inside an empty unrestricted branch
accepted by the unrestricted variant and hence by the restricted one, and
the edge of a concrete document. -/
theorem isStructuralOffset_edges_and_monotone_witness :
    ElementLinearData.isStructuralOffset exStructFactory exStructData 1 false = .ok true ∧
    ElementLinearData.isStructuralOffset exStructFactory exStructData 0 true = .ok true := by
  constructor
  · exact (isStructuralOffset_edges_and_monotone exStructFactory exStructData).2 1 (by rfl)
  · exact ((isStructuralOffset_edges_and_monotone exStructFactory exStructData).1 true).1

lemma slash_append_data (t : String) : ("/" ++ t).data = '/' :: t.data := by
  cases t
  rfl

lemma isCloseType_slash_append (t : String) : isCloseType ("/" ++ t) = true := by
  simp [isCloseType, slash_append_data]

lemma sliceOne_slash_append (t : String) : sliceOne ("/" ++ t) = t := by
  cases t
  rfl

lemma eq_slash_append_of_isCloseType {t : String} (h : isCloseType t = true) :
    t = "/" ++ sliceOne t := by
  cases t with
  | mk l =>
    cases l with
    | nil => simp [isCloseType] at h
    | cons c cs =>
      simp [isCloseType] at h
      subst h
      rfl

lemma lookup_close_false {f : NodeFactory} {t : String} {c : NodeCapabilities}
    (hWF : f.WF) (h : f.lookup t = some c) : isCloseType t = false := by
  unfold NodeFactory.lookup at h
  cases hf : f.registry.find? (·.1 = t) with
  | none =>
    rw [hf] at h
    simp at h
  | some p =>
    have hmem := List.mem_of_find?_eq_some hf
    have hp : p.1 = t := by simpa using List.find?_some hf
    rw [← hp]
    exact hWF p hmem

lemma canNodeContainContent_ok_lookup {f : NodeFactory} {t : String} {b : Bool}
    (h : f.canNodeContainContent t = .ok b) : ∃ c, f.lookup t = some c := by
  unfold NodeFactory.canNodeContainContent at h
  cases hf : f.lookup t with
  | none =>
    rw [hf] at h
    simp at h
  | some c => exact ⟨c, rfl⟩

/-- C1: `isContentOffset` is false at both document edges, and at every
interior offset it is true exactly when the specification's
characterisation `contentOffsetSpec` holds, provided the computation
returns at all (registered type names do not begin with a slash). -/
theorem isContentOffset_characterisation (f : NodeFactory) (d : ElementLinearData)
    (hWF : f.WF) :
    ElementLinearData.isContentOffset f d 0 = .ok false ∧
    ElementLinearData.isContentOffset f d d.length = .ok false ∧
    ∀ offset b, 0 < offset → offset < d.length →
      ElementLinearData.isContentOffset f d offset = .ok b →
      (b = true ↔ contentOffsetSpec f d offset) := by
  refine ⟨by simp [ElementLinearData.isContentOffset],
    by simp [ElementLinearData.isContentOffset], ?_⟩
  intro offset b h0 h1 h
  unfold ElementLinearData.isContentOffset at h
  have hedge : ¬(offset = 0 ∨ offset = d.length) := by omega
  rw [if_neg hedge] at h
  obtain ⟨itl, hl⟩ :=
    getData_isSome_of_lt (by omega : (0:Int) ≤ offset - 1) (by omega : offset - 1 < d.length)
  obtain ⟨itr, hr⟩ := getData_isSome_of_lt (le_of_lt h0) h1
  rw [hl, hr] at h
  unfold contentOffsetSpec
  cases itl with
  | char s =>
    have hb : b = true := by simpa [eq_comm] using h
    subst hb
    exact iff_of_true rfl (Or.inl ⟨s, hl⟩)
  | annChar s anns =>
    have hb : b = true := by simpa [eq_comm] using h
    subst hb
    exact iff_of_true rfl (Or.inr (Or.inl ⟨s, anns, hl⟩))
  | element le =>
    cases itr with
    | char s =>
      have hb : b = true := by simpa [eq_comm] using h
      subst hb
      exact iff_of_true rfl (Or.inr (Or.inr (Or.inl ⟨s, hr⟩)))
    | annChar s anns =>
      have hb : b = true := by simpa [eq_comm] using h
      subst hb
      exact iff_of_true rfl (Or.inr (Or.inr (Or.inr (Or.inl ⟨s, anns, hr⟩))))
    | element re =>
      replace h : orE
          (andE (.ok (isCloseType le.type)) (f.isNodeContent (sliceOne le.type)))
          (orE (andE (.ok (!isCloseType re.type)) (f.isNodeContent re.type))
            (andE (.ok (("/" ++ le.type) == re.type)) (f.canNodeContainContent le.type))) =
          .ok b := h
      constructor
      · intro hb
        subst hb
        rcases orE_eq_ok.1 h with ⟨h1d, _⟩ | ⟨_, h2d⟩
        · rcases andE_eq_ok.1 h1d with ⟨_, hcon⟩ | ⟨hc, hNC⟩
          · exact absurd hcon (by simp)
          · have hclose : isCloseType le.type = true := by simpa using hc
            exact Or.inr (Or.inr (Or.inr (Or.inr (Or.inl
              ⟨le, sliceOne le.type, hl, eq_slash_append_of_isCloseType hclose, hNC⟩))))
        · rcases orE_eq_ok.1 h2d with ⟨h3d, _⟩ | ⟨_, h4d⟩
          · rcases andE_eq_ok.1 h3d with ⟨_, hcon⟩ | ⟨hc, hNC⟩
            · exact absurd hcon (by simp)
            · have hop : isCloseType re.type = false := by simpa using hc
              exact Or.inr (Or.inr (Or.inr (Or.inr (Or.inr (Or.inl ⟨re, hr, hop, hNC⟩)))))
          · rcases andE_eq_ok.1 h4d with ⟨_, hcon⟩ | ⟨hc, hCC⟩
            · exact absurd hcon (by simp)
            · have heq : re.type = "/" ++ le.type := by
                have : ("/" ++ le.type) = re.type := by simpa using hc
                exact this.symm
              have hopen : isCloseType le.type = false := by
                obtain ⟨c, hlk⟩ := canNodeContainContent_ok_lookup hCC
                exact lookup_close_false hWF hlk
              exact Or.inr (Or.inr (Or.inr (Or.inr (Or.inr (Or.inr
                ⟨le, re, hl, hr, hopen, heq, hCC⟩)))))
      · intro hP
        rcases hP with ⟨s, hx⟩ | ⟨s, anns, hx⟩ | ⟨s, hx⟩ | ⟨s, anns, hx⟩ |
          ⟨e, t, he, het, hNC⟩ | ⟨e, he, hop, hNC⟩ | ⟨le2, re2, he1, he2, hop, heq, hCC⟩
        · rw [hl] at hx
          exact absurd (Option.some.inj hx) (by simp)
        · rw [hl] at hx
          exact absurd (Option.some.inj hx) (by simp)
        · rw [hr] at hx
          exact absurd (Option.some.inj hx) (by simp)
        · rw [hr] at hx
          exact absurd (Option.some.inj hx) (by simp)
        · rw [hl] at he
          have hele : le = e := by simpa using he
          subst hele
          have hclose : isCloseType le.type = true := by
            rw [het]
            exact isCloseType_slash_append t
          have hsl : sliceOne le.type = t := by
            rw [het]
            exact sliceOne_slash_append t
          have hD1 : andE (.ok (isCloseType le.type))
              (f.isNodeContent (sliceOne le.type)) = .ok true := by
            rw [hclose, hsl]
            simp [andE, hNC]
          rw [hD1] at h
          exact (Except.ok.inj h).symm
        · rw [hr] at he
          have hele : re = e := by simpa using he
          subst hele
          have hD2 : andE (.ok (!isCloseType re.type))
              (f.isNodeContent re.type) = .ok true := by
            rw [hop]
            simp [andE, hNC]
          rcases orE_eq_ok.1 h with ⟨_, hb⟩ | ⟨_, h2d⟩
          · exact hb
          · rw [hD2] at h2d
            exact (Except.ok.inj h2d).symm
        · rw [hl] at he1
          rw [hr] at he2
          have hele : le = le2 := by simpa using he1
          have here : re = re2 := by simpa using he2
          subst hele
          subst here
          have hD3 : andE (.ok (("/" ++ le.type) == re.type))
              (f.canNodeContainContent le.type) = .ok true := by
            rw [heq]
            simp [andE, hCC]
          rcases orE_eq_ok.1 h with ⟨_, hb⟩ | ⟨_, h2d⟩
          · exact hb
          · rcases orE_eq_ok.1 h2d with ⟨_, hb⟩ | ⟨_, h4d⟩
            · exact hb
            · rw [hD3] at h4d
              exact (Except.ok.inj h4d).symm

/-- Witness for C1 at a concrete interior offset with a character on the
right of the offset. -/
theorem isContentOffset_characterisation_witness :
    (0:Int) < 1 ∧ (1:Int) < exDataOnePara.length ∧
    ElementLinearData.isContentOffset exFactory exDataOnePara 1 = .ok true ∧
    contentOffsetSpec exFactory exDataOnePara 1 := by
  refine ⟨by decide, by decide, by rfl, ?_⟩
  exact ((isContentOffset_characterisation exFactory exDataOnePara (by decide)).2.2 1 true
    (by decide) (by decide) (by rfl)).mp rfl

/-- C3 (amended): with no direction argument, the nearest-offset searches
evaluate both directions, and when the two candidates are equidistant from
the starting offset they return the right candidate (the comparison
`offset - left < right - offset` is strict). -/
theorem nearest_offset_tie_right (f : NodeFactory) (d : ElementLinearData)
    (offset left right : Int) (u : Bool) :
    (ElementLinearData.isContentOffset f d offset = .ok false →
      ElementLinearData.getRelativeContentOffset f d offset (-1) = .ok left →
      ElementLinearData.getRelativeContentOffset f d offset 1 = .ok right →
      offset - left = right - offset →
      ElementLinearData.getNearestContentOffset f d offset none = .ok right) ∧
    (ElementLinearData.isStructuralOffset f d offset u = .ok false →
      ElementLinearData.getRelativeStructuralOffset f d offset (-1) u = .ok left →
      ElementLinearData.getRelativeStructuralOffset f d offset 1 u = .ok right →
      offset - left = right - offset →
      ElementLinearData.getNearestStructuralOffset f d offset none u = .ok right) := by
  constructor
  · intro hv hleft hright htie
    unfold ElementLinearData.getNearestContentOffset
    rw [hv, hleft, hright]
    have : ¬(offset - left < right - offset) := by omega
    simp [this]
  · intro hv hleft hright htie
    unfold ElementLinearData.getNearestStructuralOffset
    rw [hv]
    have hdir : (none : Option Int) = none ∨ (none : Option Int) = some 0 := Or.inl rfl
    rw [if_pos hdir, hleft, hright]
    have : ¬(offset - left < right - offset) := by omega
    simp [this]

/-- Counterexample for C3: in `<paragraph>a</paragraph><paragraph>b</paragraph>`
the nearest content offsets to offset 3 are 2 (left) and 4 (right),
equidistant, and `getNearestContentOffset` returns the right candidate 4,
not the left candidate 2 claimed by the specification. -/
theorem nearest_offset_tie_counterexample :
    ElementLinearData.isContentOffset exFactory exDataTwoParas 3 = .ok false ∧
    ElementLinearData.getRelativeContentOffset exFactory exDataTwoParas 3 (-1) = .ok 2 ∧
    ElementLinearData.getRelativeContentOffset exFactory exDataTwoParas 3 1 = .ok 4 ∧
    (3 : Int) - 2 = 4 - 3 ∧
    ElementLinearData.getNearestContentOffset exFactory exDataTwoParas 3 none = .ok 4 ∧
    (4 : Int) ≠ 2 := by
  refine ⟨by rfl, by rfl, by rfl, by decide, by rfl, by decide⟩

/-- Witness for C3 on concrete ties: the content tie at offset 3 of the
two-paragraph document and the structural tie at offset 2 of the
one-paragraph document. -/
theorem nearest_offset_tie_right_witness :
    ElementLinearData.getNearestContentOffset exFactory exDataTwoParas 3 none = .ok 4 ∧
    ElementLinearData.getNearestStructuralOffset exFactory exDataOnePara 2 none false =
      .ok 4 := by
  constructor
  · exact (nearest_offset_tie_right exFactory exDataTwoParas 3 2 4 false).1
      (by rfl) (by rfl) (by rfl) (by decide)
  · exact (nearest_offset_tie_right exFactory exDataOnePara 2 0 4 false).2
      (by rfl) (by rfl) (by rfl) (by decide)

lemma shouldIgnoreChildren_ok_of_WT {f : NodeFactory} {d : ElementLinearData} {i : Int}
    {e : Element} (hWT : d.WellTyped f) (h : d.getData i = some (.element e)) :
    ∃ b, f.shouldIgnoreChildren (elemBaseType e) = .ok b := by
  have hmem := mem_of_getData h
  have hwt := hWT _ hmem
  simp only [itemWellTyped] at hwt
  unfold NodeFactory.shouldIgnoreChildren
  cases hf : f.lookup (elemBaseType e) with
  | none =>
    rw [hf] at hwt
    simp at hwt
  | some c => exact ⟨c.ignoreChildren, rfl⟩

lemma relLoop_ok_cont (f : NodeFactory) (d : ElementLinearData) (cb : Int → Except String Bool)
    (hcb : ∀ j, ∃ b, cb j = .ok b) (start : Int) (hs0 : 0 ≤ start) (hs1 : start ≤ d.length)
    (fuel : Nat) (i dir : Int) (dist steps : Nat) (off : Int) (turned : Bool) (depth1 : Int)
    (hdir : dir = 1 ∨ dir = -1) (hi0 : 0 ≤ i) (hi1 : i ≤ d.length)
    (hoff : relInv d cb off) (hm : relMeasure d i dir turned ≤ fuel + 1)
    (ih : ∀ i2 dir2 dist2 steps2 off2 turned2 depth2,
      dir2 = 1 ∨ dir2 = -1 → relInv d cb off2 → relMeasure d i2 dir2 turned2 ≤ fuel →
      ∃ r, relLoop f d cb start fuel i2 dir2 dist2 steps2 off2 turned2 depth2 = .ok r ∧
        relInv d cb r) :
    ∃ r, (match cb i with
      | .error er => Except.error er
      | .ok true =>
        if depth1 = 0 then
          if dist = steps + 1 then .ok i
          else relLoop f d cb start fuel (i + dir) dir dist (steps + 1) i turned depth1
        else relLoop f d cb start fuel (i + dir) dir dist steps off turned depth1
      | .ok false =>
        if turned = false ∧ steps = 0 ∧
            ((dir < 0 ∧ i = 0) ∨
              (0 < dir ∧ (i = d.length ∨ d.getType (i - 1) = some "internalList"))) then
          match cb start with
          | .error er => Except.error er
          | .ok true => .ok start
          | .ok false => relLoop f d cb start fuel (start + (-dir)) (-dir) 1 0 off true 0
        else relLoop f d cb start fuel (i + dir) dir dist steps off turned depth1) = .ok r ∧
      relInv d cb r := by
  have hlen : d.length = (d.data.length : Int) := rfl
  have hmstep : relMeasure d (i + dir) dir turned ≤ fuel := by
    unfold relMeasure at hm ⊢
    rcases hdir with rfl | rfl <;> cases turned <;> simp at hm ⊢ <;> omega
  obtain ⟨bi, hbi⟩ := hcb i
  rw [hbi]
  cases bi with
  | true =>
    by_cases hd0 : depth1 = 0
    · rw [if_pos hd0]
      by_cases hde : dist = steps + 1
      · rw [if_pos hde]
        exact ⟨i, rfl, Or.inr ⟨hi0, hi1, hbi⟩⟩
      · rw [if_neg hde]
        exact ih (i + dir) dir dist (steps + 1) i turned depth1 hdir
          (Or.inr ⟨hi0, hi1, hbi⟩) hmstep
    · rw [if_neg hd0]
      exact ih (i + dir) dir dist steps off turned depth1 hdir hoff hmstep
  | false =>
    by_cases hta : turned = false ∧ steps = 0 ∧
        ((dir < 0 ∧ i = 0) ∨
          (0 < dir ∧ (i = d.length ∨ d.getType (i - 1) = some "internalList")))
    · rw [if_pos hta]
      obtain ⟨bs, hbs⟩ := hcb start
      rw [hbs]
      cases bs with
      | true => exact ⟨start, rfl, Or.inr ⟨hs0, hs1, hbs⟩⟩
      | false =>
        have hdir2 : (-dir) = 1 ∨ (-dir) = -1 := by
          rcases hdir with rfl | rfl
          · exact Or.inr rfl
          · exact Or.inl (by norm_num)
        have hmturn : relMeasure d (start + (-dir)) (-dir) true ≤ fuel := by
          unfold relMeasure at hm ⊢
          have hturn := hta.1
          subst hturn
          rcases hdir with rfl | rfl <;> simp at hm ⊢ <;> omega
        exact ih (start + (-dir)) (-dir) 1 0 off true 0 hdir2 hoff hmturn
    · rw [if_neg hta]
      exact ih (i + dir) dir dist steps off turned depth1 hdir hoff hmstep

lemma relLoop_ok (f : NodeFactory) (d : ElementLinearData) (cb : Int → Except String Bool)
    (hWT : d.WellTyped f) (hcb : ∀ j, ∃ b, cb j = .ok b)
    (start : Int) (hs0 : 0 ≤ start) (hs1 : start ≤ d.length) :
    ∀ fuel i dir dist steps off turned depth,
      dir = 1 ∨ dir = -1 → relInv d cb off → relMeasure d i dir turned ≤ fuel →
      ∃ r, relLoop f d cb start fuel i dir dist steps off turned depth = .ok r ∧
        relInv d cb r := by
  have hlen : d.length = (d.data.length : Int) := rfl
  intro fuel
  induction fuel with
  | zero =>
    intro i dir dist steps off turned depth hdir hoff hm
    by_cases hout : i < 0 ∨ d.length < i
    · refine ⟨off, ?_, hoff⟩
      rw [relLoop, if_pos hout]
    · exfalso
      push_neg at hout
      unfold relMeasure at hm
      rcases hdir with rfl | rfl <;> cases turned <;> simp at hm <;> omega
  | succ fuel ih =>
    intro i dir dist steps off turned depth hdir hoff hm
    by_cases hout : i < 0 ∨ d.length < i
    · refine ⟨off, ?_, hoff⟩
      rw [relLoop, if_pos hout]
    · push_neg at hout
      obtain ⟨hi0, hi1⟩ := hout
      rw [relLoop, if_neg (by omega)]
      dsimp only
      rcases hdata : d.getData (if 0 < dir then i - 1 else i) with _ | it
      · exact relLoop_ok_cont f d cb hcb start hs0 hs1 fuel i dir dist steps off turned depth
          hdir hi0 hi1 hoff hm ih
      · cases it with
        | char s =>
          exact relLoop_ok_cont f d cb hcb start hs0 hs1 fuel i dir dist steps off turned
            depth hdir hi0 hi1 hoff hm ih
        | annChar s anns =>
          exact relLoop_ok_cont f d cb hcb start hs0 hs1 fuel i dir dist steps off turned
            depth hdir hi0 hi1 hoff hm ih
        | element e =>
          obtain ⟨bsic, hsic⟩ := shouldIgnoreChildren_ok_of_WT hWT hdata
          dsimp only
          rw [hsic]
          cases bsic with
          | false =>
            exact relLoop_ok_cont f d cb hcb start hs0 hs1 fuel i dir dist steps off turned
              depth hdir hi0 hi1 hoff hm ih
          | true =>
            by_cases hEnter : (0 < dir ∧ (!isCloseType e.type) = true) ∨
                (dir < 0 ∧ (!isCloseType e.type) = false)
            · rw [if_pos hEnter]
              exact relLoop_ok_cont f d cb hcb start hs0 hs1 fuel i dir dist steps off turned
                (depth + 1) hdir hi0 hi1 hoff hm ih
            · rw [if_neg hEnter]
              by_cases hND : depth - 1 < 0
              · rw [if_pos hND]
                exact ⟨-1, rfl, Or.inl rfl⟩
              · rw [if_neg hND]
                exact relLoop_ok_cont f d cb hcb start hs0 hs1 fuel i dir dist steps off
                  turned (depth - 1) hdir hi0 hi1 hoff hm ih

lemma relLoop_allFalse_cont (f : NodeFactory) (d : ElementLinearData)
    (cb : Int → Except String Bool) (hall : ∀ j, cb j = .ok false) (start : Int)
    (hs0 : 0 ≤ start) (hs1 : start ≤ d.length)
    (fuel : Nat) (i dir : Int) (dist steps : Nat) (turned : Bool) (depth1 : Int)
    (hdir : dir = 1 ∨ dir = -1) (hi0 : 0 ≤ i) (hi1 : i ≤ d.length)
    (hm : relMeasure d i dir turned ≤ fuel + 1)
    (ih : ∀ i2 dir2 dist2 steps2 turned2 depth2, dir2 = 1 ∨ dir2 = -1 →
      relMeasure d i2 dir2 turned2 ≤ fuel →
      relLoop f d cb start fuel i2 dir2 dist2 steps2 (-1) turned2 depth2 = .ok (-1)) :
    (match cb i with
      | .error er => Except.error er
      | .ok true =>
        if depth1 = 0 then
          if dist = steps + 1 then .ok i
          else relLoop f d cb start fuel (i + dir) dir dist (steps + 1) i turned depth1
        else relLoop f d cb start fuel (i + dir) dir dist steps (-1) turned depth1
      | .ok false =>
        if turned = false ∧ steps = 0 ∧
            ((dir < 0 ∧ i = 0) ∨
              (0 < dir ∧ (i = d.length ∨ d.getType (i - 1) = some "internalList"))) then
          match cb start with
          | .error er => Except.error er
          | .ok true => .ok start
          | .ok false => relLoop f d cb start fuel (start + (-dir)) (-dir) 1 0 (-1) true 0
        else relLoop f d cb start fuel (i + dir) dir dist steps (-1) turned depth1) =
      .ok (-1) := by
  have hlen : d.length = (d.data.length : Int) := rfl
  have hmstep : relMeasure d (i + dir) dir turned ≤ fuel := by
    unfold relMeasure at hm ⊢
    rcases hdir with rfl | rfl <;> cases turned <;> simp at hm ⊢ <;> omega
  rw [hall i]
  by_cases hta : turned = false ∧ steps = 0 ∧
      ((dir < 0 ∧ i = 0) ∨
        (0 < dir ∧ (i = d.length ∨ d.getType (i - 1) = some "internalList")))
  · rw [if_pos hta, hall start]
    have hdir2 : (-dir) = 1 ∨ (-dir) = -1 := by
      rcases hdir with rfl | rfl
      · exact Or.inr rfl
      · exact Or.inl (by norm_num)
    have hmturn : relMeasure d (start + (-dir)) (-dir) true ≤ fuel := by
      unfold relMeasure at hm ⊢
      have hturn := hta.1
      subst hturn
      rcases hdir with rfl | rfl <;> simp at hm ⊢ <;> omega
    exact ih (start + (-dir)) (-dir) 1 0 true 0 hdir2 hmturn
  · rw [if_neg hta]
    exact ih (i + dir) dir dist steps turned depth1 hdir hmstep

lemma relLoop_allFalse (f : NodeFactory) (d : ElementLinearData)
    (cb : Int → Except String Bool) (hWT : d.WellTyped f) (hall : ∀ j, cb j = .ok false)
    (start : Int) (hs0 : 0 ≤ start) (hs1 : start ≤ d.length) :
    ∀ fuel i dir dist steps turned depth,
      dir = 1 ∨ dir = -1 → relMeasure d i dir turned ≤ fuel →
      relLoop f d cb start fuel i dir dist steps (-1) turned depth = .ok (-1) := by
  have hlen : d.length = (d.data.length : Int) := rfl
  intro fuel
  induction fuel with
  | zero =>
    intro i dir dist steps turned depth hdir hm
    by_cases hout : i < 0 ∨ d.length < i
    · rw [relLoop, if_pos hout]
    · exfalso
      push_neg at hout
      unfold relMeasure at hm
      rcases hdir with rfl | rfl <;> cases turned <;> simp at hm <;> omega
  | succ fuel ih =>
    intro i dir dist steps turned depth hdir hm
    by_cases hout : i < 0 ∨ d.length < i
    · rw [relLoop, if_pos hout]
    · push_neg at hout
      obtain ⟨hi0, hi1⟩ := hout
      rw [relLoop, if_neg (by omega)]
      dsimp only
      rcases hdata : d.getData (if 0 < dir then i - 1 else i) with _ | it
      · exact relLoop_allFalse_cont f d cb hall start hs0 hs1 fuel i dir dist steps turned depth
          hdir hi0 hi1 hm ih
      · cases it with
        | char s =>
          exact relLoop_allFalse_cont f d cb hall start hs0 hs1 fuel i dir dist steps turned depth
            hdir hi0 hi1 hm ih
        | annChar s anns =>
          exact relLoop_allFalse_cont f d cb hall start hs0 hs1 fuel i dir dist steps turned depth
            hdir hi0 hi1 hm ih
        | element e =>
          obtain ⟨bsic, hsic⟩ := shouldIgnoreChildren_ok_of_WT hWT hdata
          dsimp only
          rw [hsic]
          cases bsic with
          | false =>
            exact relLoop_allFalse_cont f d cb hall start hs0 hs1 fuel i dir dist steps turned depth
              hdir hi0 hi1 hm ih
          | true =>
            by_cases hEnter : (0 < dir ∧ (!isCloseType e.type) = true) ∨
                (dir < 0 ∧ (!isCloseType e.type) = false)
            · rw [if_pos hEnter]
              exact relLoop_allFalse_cont f d cb hall start hs0 hs1 fuel i dir dist steps turned
                (depth + 1) hdir hi0 hi1 hm ih
            · rw [if_neg hEnter]
              by_cases hND : depth - 1 < 0
              · rw [if_pos hND]
              · rw [if_neg hND]
                exact relLoop_allFalse_cont f d cb hall start hs0 hs1 fuel i dir dist steps turned
                  (depth - 1) hdir hi0 hi1 hm ih

lemma relLoop_distIrrel_cont (f : NodeFactory) (d : ElementLinearData)
    (cb : Int → Except String Bool) (start : Int)
    (fuel : Nat) (i dir : Int) (dist1 dist2 steps : Nat) (off : Int) (turned : Bool)
    (depth1 : Int) (h1 : steps + (fuel + 1) < dist1) (h2 : steps + (fuel + 1) < dist2)
    (ih : ∀ i2 dir2 (d1 d2 s2 : Nat) off2 turned2 depth2,
      s2 + fuel < d1 → s2 + fuel < d2 →
      relLoop f d cb start fuel i2 dir2 d1 s2 off2 turned2 depth2 =
        relLoop f d cb start fuel i2 dir2 d2 s2 off2 turned2 depth2) :
    (match cb i with
      | .error er => Except.error er
      | .ok true =>
        if depth1 = 0 then
          if dist1 = steps + 1 then .ok i
          else relLoop f d cb start fuel (i + dir) dir dist1 (steps + 1) i turned depth1
        else relLoop f d cb start fuel (i + dir) dir dist1 steps off turned depth1
      | .ok false =>
        if turned = false ∧ steps = 0 ∧
            ((dir < 0 ∧ i = 0) ∨
              (0 < dir ∧ (i = d.length ∨ d.getType (i - 1) = some "internalList"))) then
          match cb start with
          | .error er => Except.error er
          | .ok true => .ok start
          | .ok false => relLoop f d cb start fuel (start + (-dir)) (-dir) 1 0 off true 0
        else relLoop f d cb start fuel (i + dir) dir dist1 steps off turned depth1) =
    (match cb i with
      | .error er => Except.error er
      | .ok true =>
        if depth1 = 0 then
          if dist2 = steps + 1 then .ok i
          else relLoop f d cb start fuel (i + dir) dir dist2 (steps + 1) i turned depth1
        else relLoop f d cb start fuel (i + dir) dir dist2 steps off turned depth1
      | .ok false =>
        if turned = false ∧ steps = 0 ∧
            ((dir < 0 ∧ i = 0) ∨
              (0 < dir ∧ (i = d.length ∨ d.getType (i - 1) = some "internalList"))) then
          match cb start with
          | .error er => Except.error er
          | .ok true => .ok start
          | .ok false => relLoop f d cb start fuel (start + (-dir)) (-dir) 1 0 off true 0
        else relLoop f d cb start fuel (i + dir) dir dist2 steps off turned depth1) := by
  rcases hcbi : cb i with er | bi
  · rfl
  · cases bi with
    | true =>
      by_cases hd0 : depth1 = 0
      · rw [if_pos hd0, if_pos hd0, if_neg (show ¬dist1 = steps + 1 by omega),
          if_neg (show ¬dist2 = steps + 1 by omega)]
        exact ih (i + dir) dir dist1 dist2 (steps + 1) i turned depth1 (by omega) (by omega)
      · rw [if_neg hd0, if_neg hd0]
        exact ih (i + dir) dir dist1 dist2 steps off turned depth1 (by omega) (by omega)
    | false =>
      by_cases hta : turned = false ∧ steps = 0 ∧
          ((dir < 0 ∧ i = 0) ∨
            (0 < dir ∧ (i = d.length ∨ d.getType (i - 1) = some "internalList")))
      · rw [if_pos hta, if_pos hta]
      · rw [if_neg hta, if_neg hta]
        exact ih (i + dir) dir dist1 dist2 steps off turned depth1 (by omega) (by omega)

lemma relLoop_distIrrel (f : NodeFactory) (d : ElementLinearData)
    (cb : Int → Except String Bool) (start : Int) :
    ∀ fuel i dir (dist1 dist2 steps : Nat) off turned depth,
      steps + fuel < dist1 → steps + fuel < dist2 →
      relLoop f d cb start fuel i dir dist1 steps off turned depth =
        relLoop f d cb start fuel i dir dist2 steps off turned depth := by
  intro fuel
  induction fuel with
  | zero =>
    intro i dir dist1 dist2 steps off turned depth h1 h2
    simp only [relLoop]
  | succ fuel ih =>
    intro i dir dist1 dist2 steps off turned depth h1 h2
    by_cases hout : i < 0 ∨ d.length < i
    · conv_lhs => rw [relLoop, if_pos hout]
      conv_rhs => rw [relLoop, if_pos hout]
    · conv_lhs => rw [relLoop, if_neg hout]
      conv_rhs => rw [relLoop, if_neg hout]
      dsimp only
      rcases hdata : d.getData (if 0 < dir then i - 1 else i) with _ | it
      · exact relLoop_distIrrel_cont f d cb start fuel i dir dist1 dist2 steps off turned
          depth h1 h2 ih
      · cases it with
        | char s =>
          exact relLoop_distIrrel_cont f d cb start fuel i dir dist1 dist2 steps off turned
            depth h1 h2 ih
        | annChar s anns =>
          exact relLoop_distIrrel_cont f d cb start fuel i dir dist1 dist2 steps off turned
            depth h1 h2 ih
        | element e =>
          dsimp only
          rcases hsic : f.shouldIgnoreChildren (elemBaseType e) with er | bsic
          · rfl
          · cases bsic with
            | false =>
              exact relLoop_distIrrel_cont f d cb start fuel i dir dist1 dist2 steps off
                turned depth h1 h2 ih
            | true =>
              dsimp only
              by_cases hEnter : (0 < dir ∧ (!isCloseType e.type) = true) ∨
                  (dir < 0 ∧ (!isCloseType e.type) = false)
              · rw [if_pos hEnter]
                exact relLoop_distIrrel_cont f d cb start fuel i dir dist1 dist2 steps off
                  turned (depth + 1) h1 h2 ih
              · rw [if_neg hEnter]
                by_cases hND : depth - 1 < 0
                · rw [if_pos hND]
                · rw [if_neg hND]
                  exact relLoop_distIrrel_cont f d cb start fuel i dir dist1 dist2 steps off
                    turned (depth - 1) h1 h2 ih

lemma relMain_ok (f : NodeFactory) (d : ElementLinearData) (cb : Int → Except String Bool)
    (hWT : d.WellTyped f) (hcb : ∀ j, ∃ b, cb j = .ok b)
    (start : Int) (hs0 : 0 ≤ start) (hs1 : start ≤ d.length) (distance : Int) :
    ∃ r, relMain f d start distance cb = .ok r ∧ relInv d cb r := by
  have hlen : d.length = (d.data.length : Int) := rfl
  unfold relMain
  set dr : Int :=
    if start ≤ 0 then 1 else if d.length ≤ start then -1 else if 0 < distance then 1 else -1
    with hdr
  have hdir : dr = 1 ∨ dr = -1 := by
    rw [hdr]
    split_ifs <;> simp
  have hm : relMeasure d (start + dr) dr false ≤ relFuel d := by
    unfold relMeasure relFuel
    rcases hdir with h | h <;> rw [h] <;> simp <;> omega
  exact relLoop_ok f d cb hWT hcb start hs0 hs1 (relFuel d) (start + dr) dr
    distance.natAbs 0 (-1) false 0 hdir (Or.inl rfl) hm

lemma relMain_allFalse (f : NodeFactory) (d : ElementLinearData)
    (cb : Int → Except String Bool) (hWT : d.WellTyped f) (hall : ∀ j, cb j = .ok false)
    (start : Int) (hs0 : 0 ≤ start) (hs1 : start ≤ d.length) (distance : Int) :
    relMain f d start distance cb = .ok (-1) := by
  have hlen : d.length = (d.data.length : Int) := rfl
  unfold relMain
  set dr : Int :=
    if start ≤ 0 then 1 else if d.length ≤ start then -1 else if 0 < distance then 1 else -1
    with hdr
  have hdir : dr = 1 ∨ dr = -1 := by
    rw [hdr]
    split_ifs <;> simp
  have hm : relMeasure d (start + dr) dr false ≤ relFuel d := by
    unfold relMeasure relFuel
    rcases hdir with h | h <;> rw [h] <;> simp <;> omega
  exact relLoop_allFalse f d cb hWT hall start hs0 hs1 (relFuel d) (start + dr) dr
    distance.natAbs 0 false 0 hdir hm

lemma lookup_isSome_of_getData {f : NodeFactory} {d : ElementLinearData} {i : Int}
    {e : Element} (hWT : d.WellTyped f) (h : d.getData i = some (.element e)) :
    (f.lookup (elemBaseType e)).isSome = true := by
  have hmem := mem_of_getData h
  have hwt := hWT _ hmem
  simpa [itemWellTyped] using hwt

lemma isNodeContent_ok_of_isSome {f : NodeFactory} {t : String}
    (h : (f.lookup t).isSome = true) : ∃ b, f.isNodeContent t = .ok b := by
  unfold NodeFactory.isNodeContent
  cases hf : f.lookup t with
  | none =>
    rw [hf] at h
    simp at h
  | some c => exact ⟨c.isContent, rfl⟩

lemma canNodeContainContent_ok_of_isSome {f : NodeFactory} {t : String}
    (h : (f.lookup t).isSome = true) : ∃ b, f.canNodeContainContent t = .ok b := by
  unfold NodeFactory.canNodeContainContent
  cases hf : f.lookup t with
  | none =>
    rw [hf] at h
    simp at h
  | some c => exact ⟨c.canContainContent, rfl⟩

lemma canNodeHaveChildren_ok_of_isSome {f : NodeFactory} {t : String}
    (h : (f.lookup t).isSome = true) : ∃ b, f.canNodeHaveChildren t = .ok b := by
  unfold NodeFactory.canNodeHaveChildren
  cases hf : f.lookup t with
  | none =>
    rw [hf] at h
    simp at h
  | some c =>
    exact ⟨(match c.childNodeTypes with
      | none => true
      | some types => decide (0 < types.length)), rfl⟩

lemma isContentOffset_ok (f : NodeFactory) (d : ElementLinearData) (hWT : d.WellTyped f) :
    ∀ j, ∃ b, ElementLinearData.isContentOffset f d j = .ok b := by
  intro j
  unfold ElementLinearData.isContentOffset
  by_cases hedge : j = 0 ∨ j = d.length
  · rw [if_pos hedge]
    exact ⟨false, rfl⟩
  · rw [if_neg hedge]
    rcases hl : d.getData (j - 1) with _ | itl
    · exact ⟨false, rfl⟩
    rcases hr : d.getData j with _ | itr
    · cases itl <;> exact ⟨false, rfl⟩
    cases itl with
    | char s => exact ⟨true, rfl⟩
    | annChar s anns => exact ⟨true, rfl⟩
    | element le =>
      cases itr with
      | char s => exact ⟨true, rfl⟩
      | annChar s anns => exact ⟨true, rfl⟩
      | element re =>
        have h1 : ∃ b1, andE (.ok (isCloseType le.type))
            (f.isNodeContent (sliceOne le.type)) = .ok b1 := by
          by_cases hcl : isCloseType le.type = true
          · have hbase : (f.lookup (sliceOne le.type)).isSome = true := by
              have := lookup_isSome_of_getData hWT hl
              simpa [elemBaseType, hcl] using this
            obtain ⟨b, hb⟩ := isNodeContent_ok_of_isSome hbase
            refine ⟨b, ?_⟩
            rw [hcl]
            simpa [andE] using hb
          · have hcl2 : isCloseType le.type = false := by simpa using hcl
            refine ⟨false, ?_⟩
            rw [hcl2]
            rfl
        have h2 : ∃ b2, andE (.ok (!isCloseType re.type))
            (f.isNodeContent re.type) = .ok b2 := by
          by_cases hcl : isCloseType re.type = true
          · refine ⟨false, ?_⟩
            rw [hcl]
            rfl
          · have hcl2 : isCloseType re.type = false := by simpa using hcl
            have hbase : (f.lookup re.type).isSome = true := by
              have := lookup_isSome_of_getData hWT hr
              simpa [elemBaseType, hcl2] using this
            obtain ⟨b, hb⟩ := isNodeContent_ok_of_isSome hbase
            refine ⟨b, ?_⟩
            rw [hcl2]
            simpa [andE] using hb
        have h3 : ∃ b3, andE (.ok (("/" ++ le.type) == re.type))
            (f.canNodeContainContent le.type) = .ok b3 := by
          by_cases heq : ("/" ++ le.type) = re.type
          · have hbase : (f.lookup (elemBaseType re)).isSome = true :=
              lookup_isSome_of_getData hWT hr
            have hbty : elemBaseType re = le.type := by
              unfold elemBaseType
              rw [← heq]
              simp [isCloseType_slash_append, sliceOne_slash_append]
            rw [hbty] at hbase
            obtain ⟨b, hb⟩ := canNodeContainContent_ok_of_isSome hbase
            refine ⟨b, ?_⟩
            have hbeq : (("/" ++ le.type) == re.type) = true := by simp [heq]
            rw [hbeq]
            simpa [andE] using hb
          · have hbeq : (("/" ++ le.type) == re.type) = false := by simp [heq]
            refine ⟨false, ?_⟩
            rw [hbeq]
            rfl
        obtain ⟨b1, hb1⟩ := h1
        obtain ⟨b2, hb2⟩ := h2
        obtain ⟨b3, hb3⟩ := h3
        refine ⟨b1 || (b2 || b3), ?_⟩
        dsimp only
        rw [hb1, hb2, hb3]
        cases b1 <;> cases b2 <;> cases b3 <;> rfl

/-- C2 (amended): over well-typed data and a total predicate callback,
`getRelativeOffset` never throws and returns either `-1` or a
predicate-satisfying offset in `[0, length]`; once the distance magnitude
exceeds every possible match count (`2·length + 9`), the result no longer
depends on the magnitude — the search saturates at the extreme reachable
satisfying offset (possibly found after the single turnaround); and when no
offset satisfies the predicate at all the result is `-1`. -/
theorem getRelativeOffset_total_saturation (f : NodeFactory) (d : ElementLinearData)
    (cb : Int → Except String Bool) (hWT : d.WellTyped f) (hcb : ∀ j, ∃ b, cb j = .ok b)
    (offset : Int) (h0 : 0 ≤ offset) (h1 : offset ≤ d.length) :
    (∀ distance, ∃ r, ElementLinearData.getRelativeOffset f d offset distance cb = .ok r ∧
      (r = -1 ∨ (0 ≤ r ∧ r ≤ d.length ∧ cb r = .ok true))) ∧
    (∀ dist1 dist2 : Int,
      2 * d.data.length + 9 ≤ dist1.natAbs → 2 * d.data.length + 9 ≤ dist2.natAbs →
      (0 < offset → offset < d.length → (0 < dist1 ↔ 0 < dist2)) →
      ElementLinearData.getRelativeOffset f d offset dist1 cb =
        ElementLinearData.getRelativeOffset f d offset dist2 cb) ∧
    ((∀ j, cb j = .ok false) → ∀ distance,
      ElementLinearData.getRelativeOffset f d offset distance cb = .ok (-1)) := by
  have hlen : d.length = (d.data.length : Int) := rfl
  refine ⟨?_, ?_, ?_⟩
  · intro distance
    unfold ElementLinearData.getRelativeOffset
    by_cases hd0 : distance = 0
    · rw [if_pos hd0]
      obtain ⟨b, hb⟩ := hcb offset
      rw [hb]
      cases b with
      | true => exact ⟨offset, rfl, Or.inr ⟨h0, h1, hb⟩⟩
      | false => exact relMain_ok f d cb hWT hcb offset h0 h1 1
    · rw [if_neg hd0]
      exact relMain_ok f d cb hWT hcb offset h0 h1 distance
  · intro dist1 dist2 hb1 hb2 hsign
    have hne1 : dist1 ≠ 0 := by
      intro h
      rw [h] at hb1
      simp at hb1
    have hne2 : dist2 ≠ 0 := by
      intro h
      rw [h] at hb2
      simp at hb2
    unfold ElementLinearData.getRelativeOffset
    rw [if_neg hne1, if_neg hne2]
    unfold relMain
    have hdeq : (if offset ≤ 0 then (1 : Int)
        else if d.length ≤ offset then -1 else if 0 < dist1 then 1 else -1) =
        (if offset ≤ 0 then (1 : Int)
        else if d.length ≤ offset then -1 else if 0 < dist2 then 1 else -1) := by
      by_cases hle : offset ≤ 0
      · rw [if_pos hle, if_pos hle]
      · rw [if_neg hle, if_neg hle]
        by_cases hge : d.length ≤ offset
        · rw [if_pos hge, if_pos hge]
        · rw [if_neg hge, if_neg hge]
          have hiff := hsign (by omega) (by omega)
          by_cases hp : 0 < dist1
          · rw [if_pos hp, if_pos (hiff.1 hp)]
          · rw [if_neg hp, if_neg (fun hq => hp (hiff.2 hq))]
    rw [hdeq]
    exact relLoop_distIrrel f d cb offset (relFuel d)
      (offset + (if offset ≤ 0 then (1 : Int)
        else if d.length ≤ offset then -1 else if 0 < dist2 then 1 else -1))
      (if offset ≤ 0 then (1 : Int)
        else if d.length ≤ offset then -1 else if 0 < dist2 then 1 else -1)
      dist1.natAbs dist2.natAbs 0 (-1) false 0
      (by unfold relFuel; omega) (by unfold relFuel; omega)
  · intro hall distance
    unfold ElementLinearData.getRelativeOffset
    by_cases hd0 : distance = 0
    · rw [if_pos hd0, hall offset]
      exact relMain_allFalse f d cb hWT hall offset h0 h1 1
    · rw [if_neg hd0]
      exact relMain_allFalse f d cb hWT hall offset h0 h1 distance

/-- Counterexample for C2: searching forward from offset 2 of
`<paragraph>ab</paragraph>` with distance 1 under a predicate satisfied
only at offset 1, the magnitude 1 exceeds the zero satisfying offsets in
the forward direction (the visited forward offsets 3 and 4 both fail), yet
the search returns 1 — an offset behind the start reached by the single
turnaround — neither an extreme in the search direction nor `-1`, while a
satisfying offset exists. -/
theorem getRelativeOffset_extreme_counterexample :
    ElementLinearData.getRelativeOffset exFactory exDataOnePara 2 1 exCb1 = .ok 1 ∧
    exCb1 3 = .ok false ∧ exCb1 4 = .ok false ∧ exCb1 1 = .ok true ∧ (1 : Int) < 2 := by
  exact ⟨by rfl, by rfl, by rfl, by rfl, by decide⟩

/-- Witness for C2 on a concrete search. -/
theorem getRelativeOffset_total_saturation_witness :
    ∃ r, ElementLinearData.getRelativeOffset exFactory exDataOnePara 1 1 exCb1 = .ok r ∧
      (r = -1 ∨ (0 ≤ r ∧ r ≤ exDataOnePara.length ∧ exCb1 r = .ok true)) :=
  (getRelativeOffset_total_saturation exFactory exDataOnePara exCb1 (by decide)
    (fun j => ⟨decide (j = 1), rfl⟩) 1 (by decide) (by decide)).1 1

lemma getData_length_none (d : ElementLinearData) : d.getData d.length = none := by
  unfold ElementLinearData.getData ElementLinearData.length
  rw [if_pos (by omega)]
  rw [List.get?_eq_none.2 (by omega)]

/-- C10: `getAnnotationIndexesFromOffset` over well-typed data fails
exactly on offsets outside `[0, length]`; in particular the call at
`length` succeeds and returns the empty list. -/
theorem getAnnotationIndexes_bounds (f : NodeFactory) (d : ElementLinearData)
    (hWT : d.WellTyped f) :
    (∀ offset ignoreClose,
      (∃ l, ElementLinearData.getAnnotationIndexesFromOffset f d offset ignoreClose = .ok l) ↔
        0 ≤ offset ∧ offset ≤ d.length) ∧
    ∀ ignoreClose,
      ElementLinearData.getAnnotationIndexesFromOffset f d d.length ignoreClose = .ok [] := by
  have hlen : d.length = (d.data.length : Int) := rfl
  constructor
  · intro offset ig
    constructor
    · rintro ⟨l, hl⟩
      by_contra hc
      unfold ElementLinearData.getAnnotationIndexesFromOffset at hl
      rw [if_pos (by omega)] at hl
      simp at hl
    · rintro ⟨ho0, ho1⟩
      unfold ElementLinearData.getAnnotationIndexesFromOffset
      rw [if_neg (by omega)]
      dsimp only
      by_cases hcl : ig = false ∧ d.isCloseElementData offset = true
      · rw [if_pos hcl]
        obtain ⟨e, he, hct⟩ :
            ∃ e, d.getData offset = some (.element e) ∧ isCloseType e.type = true := by
          have h2 := hcl.2
          unfold ElementLinearData.isCloseElementData at h2
          rcases hg : d.getData offset with _ | it
          · rw [hg] at h2
            simp at h2
          · rw [hg] at h2
            cases it with
            | char s => simp at h2
            | annChar s anns => simp at h2
            | element e => exact ⟨e, rfl, h2⟩
        have hty : d.getType offset = some (elemBaseType e) := by
          unfold ElementLinearData.getType
          rw [he]
        rw [hty]
        dsimp only
        obtain ⟨bch, hch⟩ := canNodeHaveChildren_ok_of_isSome (lookup_isSome_of_getData hWT he)
        rw [hch]
        cases bch with
        | true => exact ⟨_, rfl⟩
        | false =>
          obtain ⟨r, hr2, _⟩ := relMain_ok f d
            (fun j => ElementLinearData.isContentOffset f d j) hWT
            (isContentOffset_ok f d hWT) offset ho0 ho1 (-1)
          have hrel : ElementLinearData.getRelativeContentOffset f d offset (-1) = .ok r := by
            unfold ElementLinearData.getRelativeContentOffset
              ElementLinearData.getRelativeOffset
            rw [if_neg (by norm_num)]
            exact hr2
          rw [hrel]
          exact ⟨_, rfl⟩
      · rw [if_neg hcl]
        exact ⟨_, rfl⟩
  · intro ig
    unfold ElementLinearData.getAnnotationIndexesFromOffset
    rw [if_neg (by omega)]
    dsimp only
    have hnone := getData_length_none d
    have hcl : ¬(ig = false ∧ d.isCloseElementData d.length = true) := by
      rintro ⟨_, h2⟩
      unfold ElementLinearData.isCloseElementData at h2
      rw [hnone] at h2
      simp at h2
    rw [if_neg hcl]
    dsimp only
    rw [hnone]

/-- Witness for C10 at a concrete document: a successful in-bounds call,
the equivalence excluding a negative offset, and the empty result at the
length offset. -/
theorem getAnnotationIndexes_bounds_witness :
    (∃ l, ElementLinearData.getAnnotationIndexesFromOffset exFactory exHeadingData 1 false =
      .ok l) ∧
    ¬(∃ l, ElementLinearData.getAnnotationIndexesFromOffset exFactory exHeadingData (-2) true =
      .ok l) ∧
    ElementLinearData.getAnnotationIndexesFromOffset exFactory exHeadingData
      exHeadingData.length true = .ok [] := by
  refine ⟨?_, ?_, ?_⟩
  · exact ((getAnnotationIndexes_bounds exFactory exHeadingData (by decide)).1 1 false).2
      ⟨by decide, by decide⟩
  · intro hex
    have := ((getAnnotationIndexes_bounds exFactory exHeadingData (by decide)).1 (-2) true).1 hex
    omega
  · exact (getAnnotationIndexes_bounds exFactory exHeadingData (by decide)).2 true

lemma countLoop_mono (f : NodeFactory) (d : ElementLinearData) :
    ∀ k i depth count u, countLoop f d 0 k i depth count = .ok u → count ≤ u := by
  intro k
  induction k with
  | zero =>
    intro i depth count u h
    rw [countLoop] at h
    simp at h
    omega
  | succ k ih =>
    intro i depth count u h
    rw [countLoop] at h
    rcases hty : d.getType i with _ | t
    · rw [hty] at h
      dsimp only at h
      by_cases hd : depth = 0
      · rw [if_pos hd] at h
        rw [if_neg (show ¬((0:Nat) ≠ 0 ∧ 0 ≤ count + 1) by simp)] at h
        have := ih _ _ _ _ h
        omega
      · rw [if_neg hd] at h
        exact ih _ _ _ _ h
    · rw [hty] at h
      dsimp only at h
      rcases hint : f.isNodeInternal t with er | bint
      · rw [hint] at h
        simp at h
      · rw [hint] at h
        cases bint with
        | true => exact ih _ _ _ _ h
        | false =>
          by_cases hd : depth = 0
          · rw [if_pos hd] at h
            rw [if_neg (show ¬((0:Nat) ≠ 0 ∧ 0 ≤ count + 1) by simp)] at h
            have := ih _ _ _ _ h
            omega
          · rw [if_neg hd] at h
            exact ih _ _ _ _ h

lemma countLoop_limit3 (f : NodeFactory) (d : ElementLinearData) :
    ∀ k i depth count, count < 3 →
      ∀ u, countLoop f d 0 k i depth count = .ok u →
        countLoop f d 3 k i depth count = .ok (min u 3) := by
  intro k
  induction k with
  | zero =>
    intro i depth count hc u h
    have hu : count = u := by
      rw [countLoop] at h
      simpa using h
    rw [countLoop]
    congr 1
    omega
  | succ k ih =>
    intro i depth count hc u h
    rw [countLoop] at h ⊢
    rcases hty : d.getType i with _ | t
    · rw [hty] at h
      dsimp only at h ⊢
      by_cases hd : depth = 0
      · rw [if_pos hd] at h ⊢
        rw [if_neg (show ¬((0:Nat) ≠ 0 ∧ 0 ≤ count + 1) by simp)] at h
        by_cases h3 : count + 1 = 3
        · rw [if_pos (show (3:Nat) ≠ 0 ∧ 3 ≤ count + 1 by omega)]
          have := countLoop_mono f d _ _ _ _ _ h
          congr 1
          omega
        · rw [if_neg (show ¬((3:Nat) ≠ 0 ∧ 3 ≤ count + 1) by omega)]
          exact ih _ _ _ (by omega) _ h
      · rw [if_neg hd] at h ⊢
        exact ih _ _ _ hc _ h
    · rw [hty] at h
      dsimp only at h ⊢
      rcases hint : f.isNodeInternal t with er | bint
      · rw [hint] at h
        simp at h
      · rw [hint] at h
        cases bint with
        | true => exact ih _ _ _ hc _ h
        | false =>
          dsimp only
          by_cases hd : depth = 0
          · rw [if_pos hd] at h ⊢
            rw [if_neg (show ¬((0:Nat) ≠ 0 ∧ 0 ≤ count + 1) by simp)] at h
            by_cases h3 : count + 1 = 3
            · rw [if_pos (show (3:Nat) ≠ 0 ∧ 3 ≤ count + 1 by omega)]
              have := countLoop_mono f d _ _ _ _ _ h
              congr 1
              omega
            · rw [if_neg (show ¬((3:Nat) ≠ 0 ∧ 3 ≤ count + 1) by omega)]
              exact ih _ _ _ (by omega) _ h
          · rw [if_neg hd] at h ⊢
            exact ih _ _ _ hc _ h

/-- C6 (amended): `hasContent` is true exactly when more than two items
lie outside internal-list subtrees, or the first item is an element whose
type can not contain content and is not internal (branch or not). -/
theorem hasContent_characterisation (f : NodeFactory) (d : ElementLinearData)
    (total : Nat) (b : Bool)
    (htotal : ElementLinearData.countNonInternalElements f d 0 = .ok total)
    (hb : ElementLinearData.hasContent f d = .ok b) :
    b = true ↔ (2 < total ∨
      ∃ e, d.getData 0 = some (.element e) ∧
        f.canNodeContainContent (elemBaseType e) = .ok false ∧
        f.isNodeInternal (elemBaseType e) = .ok false) := by
  have hc3 : ElementLinearData.countNonInternalElements f d 3 = .ok (min total 3) :=
    countLoop_limit3 f d d.data.length 0 0 0 (by omega) total htotal
  unfold ElementLinearData.hasContent at hb
  rw [hc3] at hb
  rcases orE_eq_ok.1 hb with ⟨h1, hbt⟩ | ⟨h1, h2⟩
  · have h2lt : 2 < min total 3 := by simpa using h1
    subst hbt
    exact iff_of_true rfl (Or.inl (by omega))
  · have htot2 : ¬2 < total := by
      have := h1
      simp only [Except.ok.injEq] at this
      have h2ge : ¬2 < min total 3 := by simpa using this
      omega
    rcases andE_eq_ok.1 h2 with ⟨he0, hbf⟩ | ⟨he0, h3⟩
    · subst hbf
      have hfalse : d.isElementData 0 = false := by simpa using he0
      refine iff_of_false (by simp) ?_
      rintro (hl | ⟨e, hge, _, _⟩)
      · omega
      · have htrue : d.isElementData 0 = true := by
          unfold ElementLinearData.isElementData
          rw [hge]
        rw [hfalse] at htrue
        exact absurd htrue (by simp)
    · have htrue : d.isElementData 0 = true := by simpa using he0
      obtain ⟨e, hge⟩ : ∃ e, d.getData 0 = some (.element e) := by
        unfold ElementLinearData.isElementData at htrue
        rcases hg : d.getData 0 with _ | it
        · rw [hg] at htrue
          simp at htrue
        · rw [hg] at htrue
          cases it with
          | char s => simp at htrue
          | annChar s anns => simp at htrue
          | element e => exact ⟨e, rfl⟩
      have hty : (d.getType 0).getD "" = elemBaseType e := by
        unfold ElementLinearData.getType
        rw [hge]
        rfl
      rw [hty] at h3
      rcases andE_eq_ok.1 h3 with ⟨h4, hbf⟩ | ⟨h4, h5⟩
      · subst hbf
        have hCC : f.canNodeContainContent (elemBaseType e) = .ok true := by
          have := notE_eq_ok.1 h4
          simpa using this
        refine iff_of_false (by simp) ?_
        rintro (hl | ⟨e2, hge2, hCCf, _⟩)
        · omega
        · have he2 : e2 = e := by
            rw [hge] at hge2
            simpa using hge2.symm
          subst he2
          rw [hCC] at hCCf
          exact absurd hCCf (by simp)
      · have hCC : f.canNodeContainContent (elemBaseType e) = .ok false := by
          have := notE_eq_ok.1 h4
          simpa using this
        have hINT : f.isNodeInternal (elemBaseType e) = .ok (!b) := notE_eq_ok.1 h5
        cases b with
        | true =>
          exact iff_of_true rfl (Or.inr ⟨e, hge, hCC, by simpa using hINT⟩)
        | false =>
          refine iff_of_false (by simp) ?_
          rintro (hl | ⟨e2, hge2, _, hINTf⟩)
          · omega
          · have he2 : e2 = e := by
              rw [hge] at hge2
              simpa using hge2.symm
            subst he2
            rw [hINTf] at hINT
            exact absurd hINT (by simp)

/-- Counterexample for C6: `<foo></foo>` has only two non-internal items
and its first element's type is a non-branch (`canNodeHaveChildren` is
false), so the claim's branch-only exception says `hasContent` is false,
yet the code returns true. -/
theorem hasContent_branch_counterexample :
    ElementLinearData.countNonInternalElements exLeafFactory exLeafData 0 = .ok 2 ∧
    exLeafFactory.canNodeHaveChildren "foo" = .ok false ∧
    ElementLinearData.hasContent exLeafFactory exLeafData = .ok true := by
  exact ⟨by rfl, by rfl, by rfl⟩

/-- Witness for C6 on a document with four non-internal items. -/
theorem hasContent_characterisation_witness :
    2 < 4 ∨
      ∃ e, exDataOnePara.getData 0 = some (.element e) ∧
        exFactory.canNodeContainContent (elemBaseType e) = .ok false ∧
        exFactory.isNodeInternal (elemBaseType e) = .ok false :=
  (hasContent_characterisation exFactory exDataOnePara 4 true (by rfl) (by rfl)).mp rfl

/-- C5: sanitizing a heading containing bold-annotated characters with the
plain-text rule set yields exactly one opening paragraph element, the same
characters as bare strings, and one closing paragraph marker. -/
theorem sanitize_plaintext_heading :
    ElementLinearData.sanitize exFactory { plainText := true } exHeadingData =
      .ok ⟨exBoldStore, [pOpen, .char "F", .char "o", .char "o", pClose]⟩ := by
  rfl
